import Mathlib

/-!
# A shallow embedding of the mcp-workflow execution engine

This file models the TypeScript sources of the `mcp-workflow` repository:

* `src/McpActivityTool.ts`   — activity execution (validation → run → timeout →
  lifecycle hooks → retry);
* `src/InMemoryWorkflowStore.ts` — the reference session store;
* `src/WorkflowSessionManager.ts` — the session-manager facade;
* `src/McpWorkflow.ts`       — the step-sequencing orchestrator;
* `src/types.ts`             — the data model.

Modelling conventions:

* JavaScript values that flow through untyped positions (`any`) are modelled by
  the inductive type `Value`, with an explicit `undef` constructor for
  JavaScript's `undefined`; JS truthiness is `Value.truthy`.
* `async` functions are modelled as pure functions; exceptions / promise
  rejections are modelled with `Except String`.  User-supplied callbacks are
  modelled as state-passing functions on an abstract state `σ` so that stateful
  callbacks (e.g. a `run` that fails twice and then succeeds) are expressible;
  a callback may throw by returning `.error`.
  An absent optional hook (`onSuccess?.()` with the hook undefined) behaves
  exactly like the no-op hook, so hooks are modelled as total fields; the list
  of `ActEvent`s records which hook call sites were reached.
* Wall-clock time is abstracted: each `run` callback reports its duration, the
  `Promise.race` with the timeout timer is decided by comparing that duration
  with the configured timeout, and the workflow layer draws timestamps from a
  monotonic counter (`WfState.clock`).
* `Map<string, any>` and plain JS objects are association lists whose `set`
  overwrites in place (preserving insertion order), as JS does.
-/

/-- A JavaScript value as it flows through the untyped (`any`) positions of the
workflow engine. `undef` is JavaScript's `undefined`. -/
inductive Value where
  | undef
  | vNull
  | vBool (b : Bool)
  | vNum (n : Int)
  | vStr (s : String)
  | vObj (fields : List (String × Value))
deriving Repr

/-- JavaScript truthiness (`NaN` is not modelled). -/
def Value.truthy : Value → Bool
  | .undef => false
  | .vNull => false
  | .vBool b => b
  | .vNum n => n != 0
  | .vStr s => s != ""
  | .vObj _ => true

/-- `Map.set` / object-key assignment: overwrite in place, preserving the
position of an existing key, else append. -/
def objSet : List (String × Value) → String → Value → List (String × Value)
  | [], k, v => [(k, v)]
  | (k', v') :: rest, k, v =>
      if k' = k then (k, v) :: rest else (k', v') :: objSet rest k v

/-- `Map.get` / property access: `undefined` when the key is absent. -/
def objGet (o : List (String × Value)) (k : String) : Value :=
  match o.find? (fun kv => kv.1 = k) with
  | some kv => kv.2
  | none => (.undef)

/-- JS property access `v.k`: a field lookup on objects, `undefined` otherwise
(accessors on primitives are not needed by the engine). -/
def Value.prop : Value → String → Value
  | .vObj fields, k => objGet fields k
  | _, _ => (.undef)

/-- Spreading a value into an object literal (`{...v}`): objects contribute
their fields, strings contribute index-keyed characters, other primitives
contribute nothing. -/
def spreadVal : Value → List (String × Value)
  | .vObj fields => fields
  | .vStr s => (s.toList.enum).map (fun ic => (toString ic.1, .vStr ic.2.toString))
  | _ => []

/-- `{...a, ...b}`: later entries overwrite earlier ones in place. -/
def spreadMerge (a b : List (String × Value)) : List (String × Value) :=
  b.foldl (fun acc kv => objSet acc kv.1 kv.2) a

/-- JS `x || d` for an optional string (`undefined` and `""` are falsy). -/
def jsOrStr (x : Option String) (d : String) : String :=
  match x with
  | some s => if s = "" then d else s
  | none => d

/-- JS string interpolation of a possibly-undefined string (`${x}`). -/
def showOptStr (x : Option String) : String :=
  match x with
  | some s => s
  | none => "undefined"

/-- JS truthiness of an optional boolean field (e.g. `result.success`). -/
def truthyOpt : Option Bool → Bool
  | some b => b
  | none => false

/-! ## The activity layer (`src/McpActivityTool.ts`, `src/types.ts`) -/

/-- `ToolCallSuggestion` from `src/types.ts`. -/
structure ToolCallSuggestion where
  toolName : String
  parameters : List (String × Value)
  condition : Option String := none
  priority : Option Int := none
  metadata : Option (List (String × Value)) := none
deriving Repr

/-- `ActivityResult` from `src/types.ts`.  `data` is a `Value` with `undef`
standing for an absent field. -/
structure ActivityResult where
  success : Option Bool := none
  data : Value := .undef
  error : Option String := none
  metadata : List (String × Value) := []
  toolCallSuggestions : List ToolCallSuggestion := []
deriving Repr

/-- The `metadata` object of an `ActivityContext` (`src/types.ts`). -/
structure ActivityMetadata where
  workflowName : String
  currentStep : Nat
  totalSteps : Nat
  startedAt : Nat
deriving Repr, DecidableEq

/-- `ActivityContext` from `src/types.ts`. -/
structure ActivityContext where
  input : Value
  sessionId : String
  memory : List (String × Value)
  metadata : ActivityMetadata
deriving Repr

/-- Events recording which activity call sites were reached: the `run`
callback, the three lifecycle-hook call sites, and the retry backoff sleeps. -/
inductive ActEvent where
  | runEv
  | successEv
  | failureEv
  | completeEv
  | sleepEv (ms : Nat)
deriving Repr, DecidableEq

/-- `ActivityCallbacks` from `src/types.ts`, over an abstract callback state
`σ`.  `run` additionally reports the wall-clock duration of the invocation
(used only to decide the timeout race).  The three hooks are total: an absent
JS hook is the no-op hook. -/
structure ActivityCallbacks (σ : Type) where
  run : ActivityContext → σ → (Except String ActivityResult) × Nat × σ
  onSuccess : ActivityResult → ActivityContext → σ → (Except String Unit) × σ :=
    fun _ _ s => (.ok (), s)
  onFailure : ActivityResult → ActivityContext → σ → (Except String Unit) × σ :=
    fun _ _ s => (.ok (), s)
  onComplete : ActivityResult → ActivityContext → σ → (Except String Unit) × σ :=
    fun _ _ s => (.ok (), s)

/-- The retry policy of `ActivityConfig` (`src/types.ts`). -/
structure RetryConfig where
  maxAttempts : Nat
  backoffMs : Nat
deriving Repr, DecidableEq

/-- `ActivityConfig` from `src/types.ts`.  The Zod schemas are modelled as
opaque validators that either accept or throw a message. -/
structure ActivityConfig (σ : Type) where
  inputSchema : Option (Value → Except String Unit) := none
  outputSchema : Option (Value → Except String Unit) := none
  callbacks : ActivityCallbacks σ
  timeout : Option Nat := none
  retry : Option RetryConfig := none

/-- `McpActivityTool` (`src/McpActivityTool.ts`). -/
structure McpActivityTool (σ : Type) where
  name : String
  description : String
  config : ActivityConfig σ

/-- `McpActivityTool.validateInput`: parse only when a schema is configured and
the input is truthy. -/
def McpActivityTool.validateInput {σ : Type} (t : McpActivityTool σ) (input : Value) :
    Except String Unit :=
  match t.config.inputSchema with
  | some schema => if input.truthy then schema input else .ok ()
  | none => .ok ()

/-- `McpActivityTool.validateOutput`: parse only when a schema is configured and
`result.data` is truthy. -/
def McpActivityTool.validateOutput {σ : Type} (t : McpActivityTool σ) (output : Value) :
    Except String Unit :=
  match t.config.outputSchema with
  | some schema => if output.truthy then schema output else .ok ()
  | none => .ok ()

/-- `McpActivityTool.runActivity` with `executeWithTimeout` inlined: with a
timeout configured, `Promise.race` against the timer — the timer fires first
exactly when the run outlives the timeout.  Returns the result, the elapsed
time observed by the caller, and the callback state (the abandoned run's state
effects still happen, as in JS). -/
def McpActivityTool.runActivity {σ : Type} (t : McpActivityTool σ)
    (context : ActivityContext) (s : σ) : (Except String ActivityResult) × Nat × σ :=
  match t.config.timeout with
  | none => t.config.callbacks.run context s
  | some timeoutMs =>
      if timeoutMs < (t.config.callbacks.run context s).2.1 then
        (.error ("Activity timed out after " ++ toString timeoutMs ++ "ms"), timeoutMs,
         (t.config.callbacks.run context s).2.2)
      else t.config.callbacks.run context s

/-- `McpActivityTool.runPostExecutionCallbacks`: invoke `onSuccess` when
`result.success` is truthy, else `onFailure`. -/
def McpActivityTool.runPostExecutionCallbacks {σ : Type} (t : McpActivityTool σ)
    (result : ActivityResult) (context : ActivityContext) (s : σ) :
    (Except String Unit) × σ × List ActEvent :=
  if truthyOpt result.success then
    ((t.config.callbacks.onSuccess result context s).1,
     (t.config.callbacks.onSuccess result context s).2, [.successEv])
  else
    ((t.config.callbacks.onFailure result context s).1,
     (t.config.callbacks.onFailure result context s).2, [.failureEv])

/-- The success-defaulting assignment `result.success = result.success !== false`
of `McpActivityTool.execute`. -/
def normalizeSuccess (r : ActivityResult) : ActivityResult :=
  { r with success := some (r.success ≠ some false) }

/-- The outcome of the `try` block of `McpActivityTool.execute` (steps (1)–(5)
of the algorithm), together with the elapsed time, the callback state, and the
hook call sites reached. -/
structure TryOut (σ : Type) where
  res : Except String ActivityResult
  elapsed : Nat
  state : σ
  events : List ActEvent

/-- The `try` block of `McpActivityTool.execute`: validate input, run (racing
the timeout), default `success` to `true` unless explicitly `false`, validate
output, then `runPostExecutionCallbacks`. -/
def McpActivityTool.tryPhase {σ : Type} (t : McpActivityTool σ)
    (context : ActivityContext) (s : σ) : TryOut σ :=
  match t.validateInput context.input with
  | .error e => ⟨.error e, 0, s, []⟩
  | .ok _ =>
    match (t.runActivity context s).1 with
    | .error e => ⟨.error e, (t.runActivity context s).2.1, (t.runActivity context s).2.2, [.runEv]⟩
    | .ok res0 =>
      match t.validateOutput (normalizeSuccess res0).data with
      | .error e => ⟨.error e, (t.runActivity context s).2.1, (t.runActivity context s).2.2, [.runEv]⟩
      | .ok _ =>
        match (t.runPostExecutionCallbacks (normalizeSuccess res0)
            context (t.runActivity context s).2.2).1 with
        | .error e =>
            ⟨.error e, (t.runActivity context s).2.1,
             (t.runPostExecutionCallbacks (normalizeSuccess res0)
               context (t.runActivity context s).2.2).2.1,
             .runEv :: (t.runPostExecutionCallbacks (normalizeSuccess res0)
               context (t.runActivity context s).2.2).2.2⟩
        | .ok _ =>
            ⟨.ok (normalizeSuccess res0),
             (t.runActivity context s).2.1,
             (t.runPostExecutionCallbacks (normalizeSuccess res0)
               context (t.runActivity context s).2.2).2.1,
             .runEv :: (t.runPostExecutionCallbacks (normalizeSuccess res0)
               context (t.runActivity context s).2.2).2.2⟩

/-- The outcome of one `McpActivityTool.execute` call. -/
structure ExecOut (σ : Type) where
  res : Except String ActivityResult
  state : σ
  events : List ActEvent
deriving Repr

/-- `McpActivityTool.execute` (`src/McpActivityTool.ts`, lines 40–70): the
`try` block above, a `catch` that converts a thrown error to
`{success:false, error}` and invokes `onFailure`, a `finally` that always
invokes `onComplete`, and the final `executionTimeMs` stamp.  A throw from the
`catch`-path `onFailure` or from `onComplete` propagates out of `execute`
(after the `finally` runs), with the `finally` throw taking precedence, exactly
as in JS. -/
def McpActivityTool.execute {σ : Type} (t : McpActivityTool σ)
    (context : ActivityContext) (s : σ) : ExecOut σ :=
  match (t.tryPhase context s).res with
  | .ok r =>
    -- no catch; finally:
    match (t.config.callbacks.onComplete r context (t.tryPhase context s).state).1 with
    | .error e =>
        ⟨.error e, (t.config.callbacks.onComplete r context (t.tryPhase context s).state).2,
         (t.tryPhase context s).events ++ [.completeEv]⟩
    | .ok _ =>
        ⟨.ok { r with
            metadata := objSet r.metadata "executionTimeMs" (.vNum (t.tryPhase context s).elapsed) },
         (t.config.callbacks.onComplete r context (t.tryPhase context s).state).2,
         (t.tryPhase context s).events ++ [.completeEv]⟩
  | .error e =>
    -- the catch block builds `{success:false, error}` and calls `onFailure`;
    -- the finally block then calls `onComplete`; a throw from either
    -- propagates, the finally throw taking precedence.
    match (t.config.callbacks.onComplete { success := some false, error := some e } context
        (t.config.callbacks.onFailure { success := some false, error := some e } context
          (t.tryPhase context s).state).2).1 with
    | .error e2 =>
        ⟨.error e2,
         (t.config.callbacks.onComplete { success := some false, error := some e } context
           (t.config.callbacks.onFailure { success := some false, error := some e } context
             (t.tryPhase context s).state).2).2,
         (t.tryPhase context s).events ++ [.failureEv, .completeEv]⟩
    | .ok _ =>
      match (t.config.callbacks.onFailure { success := some false, error := some e } context
          (t.tryPhase context s).state).1 with
      | .error e2 =>
          ⟨.error e2,
           (t.config.callbacks.onComplete { success := some false, error := some e } context
             (t.config.callbacks.onFailure { success := some false, error := some e } context
               (t.tryPhase context s).state).2).2,
           (t.tryPhase context s).events ++ [.failureEv, .completeEv]⟩
      | .ok _ =>
          ⟨.ok { success := some false, error := some e,
                 metadata := objSet [] "executionTimeMs" (.vNum (t.tryPhase context s).elapsed) },
           (t.config.callbacks.onComplete { success := some false, error := some e } context
             (t.config.callbacks.onFailure { success := some false, error := some e } context
               (t.tryPhase context s).state).2).2,
           (t.tryPhase context s).events ++ [.failureEv, .completeEv]⟩

/-- The `while` loop of `McpActivityTool.executeWithRetry`, as recursion on the
remaining attempts (`remaining = maxAttempts - attempt`).  `attempt` is the
0-based count of attempts already made; after a failed attempt the loop sleeps
`backoffMs * 2^attempt` (post-increment, so `2^(attempt-1)` in 1-based terms)
unless it was the last attempt. -/
def McpActivityTool.retryLoop {σ : Type} (t : McpActivityTool σ) (rc : RetryConfig)
    (context : ActivityContext) :
    Nat → Nat → Option String → σ → List ActEvent → ExecOut σ
  | 0, _, lastError, s, evs =>
      ⟨.ok { success := some false,
             error := some ("Activity failed after " ++ toString rc.maxAttempts ++
                            " attempts: " ++ showOptStr lastError) },
       s, evs⟩
  | remaining + 1, attempt, _, s, evs =>
      match (t.execute context s).res with
      | .ok r =>
        if truthyOpt r.success then
          ⟨.ok r, (t.execute context s).state, evs ++ (t.execute context s).events⟩
        else
          if remaining = 0 then
            t.retryLoop rc context remaining (attempt + 1)
              (some (jsOrStr r.error "Activity failed")) (t.execute context s).state
              (evs ++ (t.execute context s).events)
          else
            t.retryLoop rc context remaining (attempt + 1)
              (some (jsOrStr r.error "Activity failed")) (t.execute context s).state
              (evs ++ (t.execute context s).events ++ [.sleepEv (rc.backoffMs * 2 ^ attempt)])
      | .error e =>
        if remaining = 0 then
          t.retryLoop rc context remaining (attempt + 1) (some e) (t.execute context s).state
            (evs ++ (t.execute context s).events)
        else
          t.retryLoop rc context remaining (attempt + 1) (some e) (t.execute context s).state
            (evs ++ (t.execute context s).events ++ [.sleepEv (rc.backoffMs * 2 ^ attempt)])

/-- `McpActivityTool.executeWithRetry` (`src/McpActivityTool.ts`, lines
123–155): without a retry policy, delegate to `execute`; otherwise run the
retry loop from attempt 0. -/
def McpActivityTool.executeWithRetry {σ : Type} (t : McpActivityTool σ)
    (context : ActivityContext) (s : σ) : ExecOut σ :=
  match t.config.retry with
  | none => t.execute context s
  | some rc => t.retryLoop rc context rc.maxAttempts 0 none s []

/-! ## The session data model (`src/types.ts`) and store
(`src/InMemoryWorkflowStore.ts`) -/

/-- `WorkflowStatus` from `src/types.ts` (the enum has exactly these five
members; there is no paused state in the source). -/
inductive WorkflowStatus where
  | pending
  | running
  | completed
  | failed
  | cancelled
deriving Repr, DecidableEq

/-- The string value of a `WorkflowStatus` enum member. -/
def statusStr : WorkflowStatus → String
  | .pending => "pending"
  | .running => "running"
  | .completed => "completed"
  | .failed => "failed"
  | .cancelled => "cancelled"

/-- One entry of `WorkflowSession.history` (`src/types.ts`). -/
structure HistoryEntry where
  stepIndex : Nat
  activityName : String
  startedAt : Nat
  completedAt : Nat
  success : Bool
  error : Option String := none
deriving Repr, DecidableEq

/-- One entry of `WorkflowSession.branchHistory` (`src/types.ts`). -/
structure BranchHistoryEntry where
  stepIndex : Nat
  branchPattern : Option String := none
  toolName : String
  timestamp : Nat
deriving Repr, DecidableEq

/-- `WorkflowSession` from `src/types.ts`.  Timestamps are draws from the
monotonic model clock. -/
structure WorkflowSession where
  sessionId : String
  workflowName : String
  status : WorkflowStatus
  currentStep : Nat
  totalSteps : Nat
  memory : List (String × Value) := []
  startedAt : Nat
  completedAt : Option Nat := none
  error : Option String := none
  history : List HistoryEntry := []
  branchHistory : List BranchHistoryEntry := []
deriving Repr

/-- The `Map<string, WorkflowSession>` held by `InMemoryWorkflowStore`. -/
abbrev Store := List (String × WorkflowSession)

/-- `Map.set` on the session map (overwrite in place, else append). -/
def storeSet : Store → String → WorkflowSession → Store
  | [], sid, s => [(sid, s)]
  | (k, v) :: rest, sid, s =>
      if k = sid then (sid, s) :: rest else (k, v) :: storeSet rest sid s

/-- `Map.get` on the session map. -/
def storeGet (store : Store) (sessionId : String) : Option WorkflowSession :=
  match store.find? (fun kv => kv.1 = sessionId) with
  | some kv => some kv.2
  | none => none

/-- The partial-update object accepted by `updateSession`.  Only the fields
the orchestrator ever passes are modelled; `none` means the key is absent from
the update object.  `completedAt`/`error` are doubly optional because
`completeSession` passes them explicitly (possibly as `undefined`, which JS
object spread then writes over the stored value).  `sessionId` and
`workflowName` are excluded: the source explicitly keeps the existing values,
and `memory`/`history`/`branchHistory` are preserved because the orchestrator
never includes them (`updates.memory || existing.memory`). -/
structure SessionUpdates where
  status : Option WorkflowStatus := none
  currentStep : Option Nat := none
  completedAt : Option (Option Nat) := none
  error : Option (Option String) := none
deriving Repr, DecidableEq

/-- The merge `{...existing, ...updates}` of `InMemoryWorkflowStore.updateSession`. -/
def applyUpdates (s : WorkflowSession) (u : SessionUpdates) : WorkflowSession :=
  { s with
    status := u.status.getD s.status
    currentStep := u.currentStep.getD s.currentStep
    completedAt := match u.completedAt with | some v => v | none => s.completedAt
    error := match u.error with | some v => v | none => s.error }

/-- `WorkflowStoreStats` from `src/WorkflowStore.ts`. -/
structure WorkflowStoreStats where
  total : Nat
  pending : Nat
  running : Nat
  completed : Nat
  failed : Nat
  cancelled : Nat
deriving Repr, DecidableEq

/-- `InMemoryWorkflowStore.createSession`: stores the session under its id
(overwriting any existing entry — there is no duplicate check in the source)
and returns the stored copy.  The source's defensive copies of `memory`,
`history` and `branchHistory` are identities in this pure value model. -/
def InMemoryWorkflowStore.createSession (store : Store) (session : WorkflowSession) :
    Store × WorkflowSession :=
  (storeSet store session.sessionId session, session)

/-- `InMemoryWorkflowStore.getSession` (returns a deep copy; copy = identity
here). -/
def InMemoryWorkflowStore.getSession (store : Store) (sessionId : String) :
    Option WorkflowSession :=
  storeGet store sessionId

/-- `InMemoryWorkflowStore.updateSession`: throws when the session does not
exist, else merges the updates over the existing record. -/
def InMemoryWorkflowStore.updateSession (store : Store) (sessionId : String)
    (updates : SessionUpdates) : Except String Store :=
  match storeGet store sessionId with
  | none => .error ("Session " ++ sessionId ++ " not found")
  | some existing => .ok (storeSet store sessionId (applyUpdates existing updates))

/-- `InMemoryWorkflowStore.setMemory`: throws when the session does not exist,
else `session.memory.set(key, value)`. -/
def InMemoryWorkflowStore.setMemory (store : Store) (sessionId key : String)
    (value : Value) : Except String Store :=
  match storeGet store sessionId with
  | none => .error ("Session " ++ sessionId ++ " not found")
  | some s => .ok (storeSet store sessionId { s with memory := objSet s.memory key value })

/-- `InMemoryWorkflowStore.recordStepExecution`: throws when the session does
not exist, else appends to `session.history`. -/
def InMemoryWorkflowStore.recordStepExecution (store : Store) (sessionId : String)
    (stepIndex : Nat) (activityName : String) (startedAt completedAt : Nat)
    (success : Bool) (error : Option String) : Except String Store :=
  match storeGet store sessionId with
  | none => .error ("Session " ++ sessionId ++ " not found")
  | some s =>
      .ok (storeSet store sessionId
        { s with history := s.history ++
            [{ stepIndex, activityName, startedAt, completedAt, success, error }] })

/-- `InMemoryWorkflowStore.getStats`. -/
def InMemoryWorkflowStore.getStats (store : Store) : WorkflowStoreStats :=
  { total := store.length
    pending := (store.filter (fun kv => kv.2.status = .pending)).length
    running := (store.filter (fun kv => kv.2.status = .running)).length
    completed := (store.filter (fun kv => kv.2.status = .completed)).length
    failed := (store.filter (fun kv => kv.2.status = .failed)).length
    cancelled := (store.filter (fun kv => kv.2.status = .cancelled)).length }

/-- Stable insertion into a list already sorted by `lt` (`lt x y` = `x` must
come strictly before `y`): `x` is placed after every element it does not
strictly precede, so equal keys keep their original order. -/
def insertSorted {α : Type} (lt : α → α → Bool) (x : α) : List α → List α
  | [] => [x]
  | y :: ys => if lt x y then x :: y :: ys else y :: insertSorted lt x ys

/-- Stable sort (JS `Array.prototype.sort` is stable; a stable sort by a fixed
key is extensionally unique, so insertion sort models it exactly). -/
def stableSort {α : Type} (lt : α → α → Bool) (l : List α) : List α :=
  l.foldl (fun acc x => insertSorted lt x acc) []

/-- `InMemoryWorkflowStore.cleanup`: first delete sessions that are older than
`maxAge` (when a truthy `maxAge` is given) or whose status is listed in
`statuses`; then, when a truthy `maxSessions` is given and the store is still
above it, evict the oldest sessions by `startedAt`.  Returns the new store and
the number of deleted sessions. -/
def InMemoryWorkflowStore.cleanup (store : Store) (now : Nat)
    (maxAge maxSessions : Option Nat) (statuses : Option (List WorkflowStatus)) :
    Store × Nat :=
  let shouldClean : WorkflowSession → Bool := fun s =>
    (match maxAge with
     | some a => a ≠ 0 && now - s.startedAt > a
     | none => false) ||
    (match statuses with
     | some l => l.contains s.status
     | none => false)
  let kept := store.filter (fun kv => ¬ shouldClean kv.2)
  let deleted := store.length - kept.length
  match maxSessions with
  | some m =>
      if m ≠ 0 && kept.length > m then
        let sorted := stableSort (fun a b => a.2.startedAt < b.2.startedAt) kept
        let toRemove := (sorted.take (kept.length - m)).map (·.1)
        let final := kept.filter (fun kv => ¬ toRemove.contains kv.1)
        (final, deleted + (kept.length - final.length))
      else (kept, deleted)
  | none => (kept, deleted)

/-! ## The workflow configuration (`src/types.ts`) -/

/-- `BranchConfig` from `src/types.ts`.  `when`/`with` are named `whenFn` /
`withFn` (`with` is reserved in Lean); the first argument is `result.data`,
the second the step input, the third the session memory. -/
structure BranchConfig where
  whenFn : Value → Value → List (String × Value) → Bool
  call : String
  withFn : Option (Value → Value → List (String × Value) → List (String × Value)) := none
  description : Option String := none

/-- `WorkflowStep` from `src/types.ts`.  An absent `branches` array behaves
like an empty one (the loop body never runs either way), so `branches` is a
plain list. -/
structure WorkflowStep (σ : Type) where
  activity : McpActivityTool σ
  optional : Bool := false
  condition : Option (List (String × Value) → Bool) := none
  branches : List BranchConfig := []
  inputMapper : Option (Value → List (String × Value) → Value) := none

/-- `WorkflowConfig` from `src/types.ts`.  The workflow-level lifecycle
callbacks (`onSuccess`/`onFailure`/`onComplete`) are notifications; the model
records their invocations in the `WfEvent` trace (see `WfState`) instead of
carrying host functions.  The `timeout` field is never read by the
orchestrator source. -/
structure WorkflowConfig (σ : Type) where
  steps : List (WorkflowStep σ)
  timeout : Option Nat := none

/-- `McpWorkflow` (`src/McpWorkflow.ts`). -/
structure McpWorkflow (σ : Type) where
  name : String
  description : String
  config : WorkflowConfig σ

/-- Workflow-level callback invocations: `onSuccess(memory, sessionId)`,
`onFailure(error, sessionId)`, `onComplete(status, sessionId)`. -/
inductive WfEvent where
  | successEv
  | failureEv (error : String)
  | completeEv (status : WorkflowStatus)
deriving Repr, DecidableEq

/-- The world state threaded through the orchestrator: the store, the
monotonic clock backing `Date.now()` / `new Date()`, the `randomUUID` counter,
the orchestrator's `lastSessionId` pointer, the traces of workflow-level and
activity-level callback invocations, and the abstract state of the
user-supplied activity callbacks. -/
structure WfState (σ : Type) where
  store : Store
  clock : Nat := 0
  nextId : Nat := 0
  lastSessionId : Option String := none
  wfEvents : List WfEvent := []
  actEvents : List ActEvent := []
  act : σ

/-- One observation of the clock (`Date.now()` / `new Date()`); the clock
advances so that successive timestamps are distinct. -/
def tick {σ : Type} (st : WfState σ) : Nat × WfState σ :=
  (st.clock, { st with clock := st.clock + 1 })

/-! ## The session manager (`src/WorkflowSessionManager.ts`), with its default
options (`maxSessions = 1000`, `sessionTTLMs = 3600000`). -/

def WorkflowSessionManager.maxSessions : Nat := 1000

def WorkflowSessionManager.sessionTTLMs : Nat := 3600000

/-- `WorkflowSessionManager.cleanup`: store cleanup with the configured TTL,
session cap, and terminal statuses. -/
def WorkflowSessionManager.cleanup {σ : Type} (st : WfState σ) : WfState σ :=
  { (tick st).2 with store :=
      (InMemoryWorkflowStore.cleanup (tick st).2.store (tick st).1
        (some WorkflowSessionManager.sessionTTLMs)
        (some WorkflowSessionManager.maxSessions)
        (some [.completed, .failed, .cancelled])).1 }

/-- `WorkflowSessionManager.createSession`: cleanup when at the session cap,
then create a fresh `pending` session (id from `randomUUID`, modelled by the
`nextId` counter) and store it. -/
def WorkflowSessionManager.createSession {σ : Type} (workflowName : String)
    (totalSteps : Nat) (st : WfState σ) : WorkflowSession × WfState σ :=
  let st1 : WfState σ :=
    if (InMemoryWorkflowStore.getStats st.store).total ≥ WorkflowSessionManager.maxSessions
    then WorkflowSessionManager.cleanup st else st
  let session : WorkflowSession :=
    { sessionId := "session-" ++ toString st1.nextId, workflowName := workflowName,
      status := .pending, currentStep := 0, totalSteps := totalSteps,
      memory := [], startedAt := st1.clock, history := [], branchHistory := [] }
  ((InMemoryWorkflowStore.createSession st1.store session).2,
   { st1 with nextId := st1.nextId + 1, clock := st1.clock + 1,
              store := (InMemoryWorkflowStore.createSession st1.store session).1 })

/-- `WorkflowSessionManager.getSession`. -/
def WorkflowSessionManager.getSession {σ : Type} (sessionId : String)
    (st : WfState σ) : Option WorkflowSession :=
  InMemoryWorkflowStore.getSession st.store sessionId

/-- `WorkflowSessionManager.updateSession`. -/
def WorkflowSessionManager.updateSession {σ : Type} (sessionId : String)
    (updates : SessionUpdates) (st : WfState σ) : (Except String Unit) × WfState σ :=
  match InMemoryWorkflowStore.updateSession st.store sessionId updates with
  | .error e => (.error e, st)
  | .ok store' => (.ok (), { st with store := store' })

/-- `WorkflowSessionManager.setMemory`. -/
def WorkflowSessionManager.setMemory {σ : Type} (sessionId key : String)
    (value : Value) (st : WfState σ) : (Except String Unit) × WfState σ :=
  match InMemoryWorkflowStore.setMemory st.store sessionId key value with
  | .error e => (.error e, st)
  | .ok store' => (.ok (), { st with store := store' })

/-- `WorkflowSessionManager.recordStepExecution`. -/
def WorkflowSessionManager.recordStepExecution {σ : Type} (sessionId : String)
    (stepIndex : Nat) (activityName : String) (startedAt completedAt : Nat)
    (success : Bool) (error : Option String) (st : WfState σ) :
    (Except String Unit) × WfState σ :=
  match InMemoryWorkflowStore.recordStepExecution st.store sessionId stepIndex
      activityName startedAt completedAt success error with
  | .error e => (.error e, st)
  | .ok store' => (.ok (), { st with store := store' })

/-- `WorkflowSessionManager.completeSession`: `updateSession` setting
`status`, `completedAt = new Date()` and `error`.  When `error` is omitted the
update object still carries the key with value `undefined`, so the stored
`error` is overwritten (cleared). -/
def WorkflowSessionManager.completeSession {σ : Type} (sessionId : String)
    (status : WorkflowStatus) (error : Option String) (st : WfState σ) :
    (Except String Unit) × WfState σ :=
  WorkflowSessionManager.updateSession sessionId
    { status := some status, completedAt := some (some (tick st).1), error := some error }
    (tick st).2

/-! ## The orchestrator (`src/McpWorkflow.ts`) -/

/-- The response the orchestrator returns per call, projecting the fields of
`WorkflowToolResponse` the model tracks: `message` is the human-readable
message of `toolResult.content[0]`, `isError` is `toolResult.isError`,
`nextInstructions` is the ranked suggestion list, `nextActivity` the next
step's activity name, `session` the session snapshot. -/
structure WfResponse where
  message : String
  isError : Bool := false
  nextInstructions : List ToolCallSuggestion := []
  nextActivity : Option String := none
  session : Option WorkflowSession := none
deriving Repr

/-- `McpWorkflow.buildToolCallSuggestions` (`src/McpWorkflow.ts`, lines
213–270): activity-carried suggestions, then one suggestion per matching
branch (guarded by `step.branches && result.data`, so nothing is evaluated
when `result.data` is falsy), then the default continue suggestion when this
is not the last step and no suggestion already targets
`{workflow}_continue`, finally a stable sort by descending priority. -/
def McpWorkflow.buildToolCallSuggestions {σ : Type} (wf : McpWorkflow σ)
    (stepIndex : Nat) (result : ActivityResult) (sessionId : String)
    (stepInput : Value) (store : Store) : List ToolCallSuggestion :=
  match wf.config.steps.get? stepIndex with
  | none => []  -- unreachable: every call site passes a valid index
  | some step =>
    let isLastStep := stepIndex == wf.config.steps.length - 1
    let memory := match InMemoryWorkflowStore.getSession store sessionId with
      | some s => s.memory
      | none => []
    let suggestions := result.toolCallSuggestions
    let suggestions := suggestions ++
      (if result.data.truthy then
        (step.branches.filter (fun b => b.whenFn result.data stepInput memory)).map
          (fun b =>
            let parameters := match b.withFn with
              | some f => f result.data stepInput memory
              | none => spreadVal result.data
            { toolName := b.call
              parameters := spreadMerge [("sessionId", .vStr sessionId)] parameters
              condition := some (jsOrStr b.description ("Branch: " ++ b.call))
              priority := some 100 })
      else [])
    let suggestions :=
      if !isLastStep &&
          !(suggestions.any (fun s => s.toolName == wf.name ++ "_continue")) then
        suggestions ++
          [{ toolName := wf.name ++ "_continue"
             parameters := []
             condition := some "Continue to next step in workflow"
             priority := some 50 }]
      else suggestions
    stableSort (fun a b => b.priority.getD 0 < a.priority.getD 0) suggestions

/-- `McpWorkflow.shouldSkipStep`: skip exactly when a condition is configured
and evaluates to false on the session memory. -/
def McpWorkflow.shouldSkipStep {σ : Type} (_wf : McpWorkflow σ)
    (step : WorkflowStep σ) (session : WorkflowSession) : Bool :=
  match step.condition with
  | some c => !(c session.memory)
  | none => false

/-- The `ActivityContext` built by `McpWorkflow.runActivityForStep`: the input
mapped through `inputMapper` when present (falling back to `{}` when falsy),
the session id, the session's memory snapshot, and the workflow metadata. -/
def McpWorkflow.stepContext {σ : Type} (wf : McpWorkflow σ) (step : WorkflowStep σ)
    (session : WorkflowSession) (stepIndex : Nat) (stepInput : Value) :
    ActivityContext :=
  let mappedInput := match step.inputMapper with
    | some f => f stepInput session.memory
    | none => stepInput
  { input := if mappedInput.truthy then mappedInput else .vObj []
    sessionId := session.sessionId
    memory := session.memory
    metadata :=
      { workflowName := wf.name
        currentStep := stepIndex
        totalSteps := wf.config.steps.length
        startedAt := session.startedAt } }

/-- `McpWorkflow.runActivityForStep` (`src/McpWorkflow.ts`, lines 357–404):
build the context, execute the activity, and — when the activity call did not
reject — record the execution in the history and write `result.data` into
memory under the activity's name (regardless of `result.success`). -/
def McpWorkflow.runActivityForStep {σ : Type} (wf : McpWorkflow σ)
    (activity : McpActivityTool σ) (session : WorkflowSession) (stepIndex : Nat)
    (stepInput : Value) (st : WfState σ) : (Except String ActivityResult) × WfState σ :=
  match wf.config.steps.get? stepIndex with
  | none => (.error "TypeError: Cannot read properties of undefined", st)
  | some step =>
    -- `startedAt = new Date()` is the clock before the activity call; the
    -- activity's events and state are folded into the world state; on a
    -- rejection nothing is recorded (`completedAt` is never taken).
    match (activity.execute (wf.stepContext step session stepIndex stepInput) st.act).res with
    | .error e =>
        (.error e,
         { st with clock := st.clock + 1,
                   act := (activity.execute (wf.stepContext step session stepIndex stepInput) st.act).state,
                   actEvents := st.actEvents ++ (activity.execute (wf.stepContext step session stepIndex stepInput) st.act).events })
    | .ok result =>
      match WorkflowSessionManager.recordStepExecution session.sessionId stepIndex
          activity.name st.clock (st.clock + 1) (result.success.getD true) result.error
          { st with clock := st.clock + 2,
                    act := (activity.execute (wf.stepContext step session stepIndex stepInput) st.act).state,
                    actEvents := st.actEvents ++ (activity.execute (wf.stepContext step session stepIndex stepInput) st.act).events } with
      | (.error e, st2) => (.error e, st2)
      | (.ok _, st2) =>
        match WorkflowSessionManager.setMemory session.sessionId activity.name
            result.data st2 with
        | (.error e, st3) => (.error e, st3)
        | (.ok _, st3) => (.ok result, st3)

/-- `McpWorkflow.failWorkflow`: mark the session failed with the error, then
invoke the workflow's `onFailure` and `onComplete` callbacks (recorded as
events). -/
def McpWorkflow.failWorkflow {σ : Type} (_wf : McpWorkflow σ) (sessionId : String)
    (error : String) (st : WfState σ) : (Except String Unit) × WfState σ :=
  match WorkflowSessionManager.completeSession sessionId .failed (some error) st with
  | (.error e, st) => (.error e, st)
  | (.ok _, st) =>
      (.ok (), { st with wfEvents := st.wfEvents ++ [.failureEv error, .completeEv .failed] })

/-- `McpWorkflow.handleFailedStep` (`src/McpWorkflow.ts`, lines 472–495):
fail the workflow (defaulting an absent/empty error message) and return the
error response.  The response text interpolates the original, possibly
`undefined`, error. -/
def McpWorkflow.handleFailedStep {σ : Type} (wf : McpWorkflow σ) (sessionId : String)
    (stepIndex : Nat) (activityName : String) (error : Option String)
    (st : WfState σ) : (Except String WfResponse) × WfState σ :=
  match wf.failWorkflow sessionId (jsOrStr error "Activity failed without error message") st with
  | (.error e, st) => (.error e, st)
  | (.ok _, st) =>
      (.ok { message := "Workflow failed at step " ++ toString stepIndex ++ " (" ++
               activityName ++ "): " ++ showOptStr error
             isError := true
             session := InMemoryWorkflowStore.getSession st.store sessionId }, st)

/-- `McpWorkflow.completeWorkflow` (`src/McpWorkflow.ts`, lines 500–545):
require the session, mark it completed (clearing `error`), invoke `onSuccess`
then `onComplete`, and return the completion response. -/
def McpWorkflow.completeWorkflow {σ : Type} (_wf : McpWorkflow σ) (sessionId : String)
    (st : WfState σ) : (Except String WfResponse) × WfState σ :=
  match InMemoryWorkflowStore.getSession st.store sessionId with
  | none => (.error ("Workflow session " ++ sessionId ++ " not found"), st)
  | some _session =>
    match WorkflowSessionManager.completeSession sessionId .completed none st with
    | (.error e, st) => (.error e, st)
    | (.ok _, st) =>
      let st := { st with wfEvents := st.wfEvents ++ [.successEv, .completeEv .completed] }
      (.ok { message := "Workflow completed successfully"
             session := InMemoryWorkflowStore.getSession st.store sessionId }, st)

/-- `McpWorkflow.handleSuccessfulStep` (`src/McpWorkflow.ts`, lines 409–467):
the last step completes the workflow (before any suggestions are built);
otherwise build the ranked suggestion list and return the step response. -/
def McpWorkflow.handleSuccessfulStep {σ : Type} (wf : McpWorkflow σ)
    (sessionId : String) (stepIndex : Nat) (activityName : String)
    (result : ActivityResult) (stepInput : Value) (st : WfState σ) :
    (Except String WfResponse) × WfState σ :=
  let isLastStep := stepIndex == wf.config.steps.length - 1
  if isLastStep then wf.completeWorkflow sessionId st
  else
    let toolSuggestions :=
      wf.buildToolCallSuggestions stepIndex result sessionId stepInput st.store
    match wf.config.steps.get? (stepIndex + 1) with
    | none => (.error "TypeError: Cannot read properties of undefined", st)  -- unreachable
    | some nextStep =>
        (.ok { message := "Step " ++ toString stepIndex ++ " (" ++ activityName ++
                 ") completed successfully"
               nextInstructions := toolSuggestions
               nextActivity := some nextStep.activity.name
               session := InMemoryWorkflowStore.getSession st.store sessionId }, st)

mutual

/-- `McpWorkflow.executeStep` (`src/McpWorkflow.ts`, lines 288–352): load the
session (raising when absent), require the step, record `currentStep`, skip to
`continue()` when the condition says so, else run the activity inside a
`try`/`catch` whose `catch` routes any raised error through
`handleFailedStep`.  `fuel` bounds the skip→continue recursion; the public
entry points supply `steps.length + 1`, which the skip chain (one per step
index) can never exhaust. -/
def McpWorkflow.executeStep {σ : Type} (wf : McpWorkflow σ) (fuel : Nat)
    (sessionId : String) (stepIndex : Nat) (stepInput : Value) (st : WfState σ) :
    (Except String WfResponse) × WfState σ :=
  match InMemoryWorkflowStore.getSession st.store sessionId with
  | none => (.error ("Workflow session " ++ sessionId ++ " not found"), st)
  | some session =>
    match wf.config.steps.get? stepIndex with
    | none => (.error ("Step " ++ toString stepIndex ++ " not found in workflow"), st)
    | some step =>
      match WorkflowSessionManager.updateSession sessionId
          { currentStep := some stepIndex } st with
      | (.error e, st) => (.error e, st)
      | (.ok _, st) =>
        if wf.shouldSkipStep step session then
          match fuel with
          | 0 => (.error "workflow recursion fuel exhausted", st)
          | fuel' + 1 => wf.continueWorkflow fuel' st
        else
          -- `step.activity` is non-nullable in the typed model, so the
          -- source's `if (!activity)` guard is unreachable here.
          let attempt : (Except String WfResponse) × WfState σ :=
            match wf.runActivityForStep step.activity session stepIndex stepInput st with
            | (.error e, st) => (.error e, st)
            | (.ok result, st) =>
              if !truthyOpt result.success && !step.optional then
                wf.handleFailedStep sessionId stepIndex step.activity.name result.error st
              else
                wf.handleSuccessfulStep sessionId stepIndex step.activity.name result
                  stepInput st
          match attempt with
          | (.ok resp, st) => (.ok resp, st)
          | (.error e, st) =>
              wf.handleFailedStep sessionId stepIndex step.activity.name (some e) st
termination_by structural fuel

/-- `McpWorkflow.continue` (`src/McpWorkflow.ts`, lines 175–208; `continue` is
reserved in Lean): resume the orchestrator's `lastSessionId` session; reject
unless its status is `running`; complete the workflow when past the last step,
else feed the previous step's memory output into the next step. -/
def McpWorkflow.continueWorkflow {σ : Type} (wf : McpWorkflow σ) (fuel : Nat)
    (st : WfState σ) : (Except String WfResponse) × WfState σ :=
  match st.lastSessionId with
  | none => (.error "No active workflow session to continue.", st)
  | some sessionId =>
    match InMemoryWorkflowStore.getSession st.store sessionId with
    | none => (.error ("Workflow session " ++ sessionId ++ " not found"), st)
    | some session =>
      if session.status = WorkflowStatus.running then
        let nextStepIndex := session.currentStep + 1
        if nextStepIndex ≥ wf.config.steps.length then
          wf.completeWorkflow sessionId st
        else
          -- `session.currentStep >= 0` always holds (Nat), and the previous
          -- step exists because `currentStep + 1 < steps.length`.
          match wf.config.steps.get? session.currentStep with
          | none => (.error "TypeError: Cannot read properties of undefined", st)
          | some previousStep =>
            match fuel with
            | 0 => (.error "workflow recursion fuel exhausted", st)
            | fuel' + 1 =>
                wf.executeStep fuel' sessionId nextStepIndex
                  (objGet session.memory previousStep.activity.name) st
      else
        (.error ("Cannot continue workflow in status: " ++ statusStr session.status), st)
termination_by structural fuel

end

/-- `McpWorkflow.start` (`src/McpWorkflow.ts`, lines 146–170): create a
session, remember it as `lastSessionId`, store a truthy input under the
reserved memory key, transition to `running`, and execute step 0. -/
def McpWorkflow.start {σ : Type} (wf : McpWorkflow σ) (input : Value)
    (st : WfState σ) : (Except String WfResponse) × WfState σ :=
  let (session, st) :=
    WorkflowSessionManager.createSession wf.name wf.config.steps.length st
  let st := { st with lastSessionId := some session.sessionId }
  let afterInput :=
    if input.truthy then
      WorkflowSessionManager.setMemory session.sessionId "__workflow_input__" input st
    else (.ok (), st)
  match afterInput with
  | (.error e, st) => (.error e, st)
  | (.ok _, st) =>
    match WorkflowSessionManager.updateSession session.sessionId
        { status := some .running } st with
    | (.error e, st) => (.error e, st)
    | (.ok _, st) =>
        -- enough fuel for the whole skip/continue chain: each hop consumes one
        wf.executeStep (2 * wf.config.steps.length + 2) session.sessionId 0 input st

/-- `McpWorkflow.cancel` (`src/McpWorkflow.ts`, lines 567–580): require the
session, then unconditionally mark it cancelled and invoke `onComplete` only
(there is no status guard in the source). -/
def McpWorkflow.cancel {σ : Type} (_wf : McpWorkflow σ) (sessionId : String)
    (st : WfState σ) : (Except String Unit) × WfState σ :=
  match InMemoryWorkflowStore.getSession st.store sessionId with
  | none => (.error ("Workflow session " ++ sessionId ++ " not found"), st)
  | some _ =>
    match WorkflowSessionManager.completeSession sessionId .cancelled none st with
    | (.error e, st) => (.error e, st)
    | (.ok _, st) =>
        (.ok (), { st with wfEvents := st.wfEvents ++ [.completeEv .cancelled] })

/-- `McpWorkflow.getSessionStatus`: a read-only session lookup. -/
def McpWorkflow.getSessionStatus {σ : Type} (_wf : McpWorkflow σ) (sessionId : String)
    (st : WfState σ) : Option WorkflowSession :=
  InMemoryWorkflowStore.getSession st.store sessionId

/-! ## Concrete fixtures

Small concrete activities, workflows and states used to instantiate the
theorems below on executable inputs. -/

/-- A fixed execution context. -/
def ctx0 : ActivityContext :=
  { input := .vObj [("a", .vNum 1)], sessionId := "s", memory := [],
    metadata := { workflowName := "w", currentStep := 0, totalSteps := 1, startedAt := 0 } }

/-- A plain activity whose `run` succeeds; all hooks are no-ops. -/
def plainTool : McpActivityTool Unit :=
  { name := "plain", description := "succeeds",
    config := { callbacks :=
      { run := fun _ s => (.ok { success := some true, data := .vStr "out" }, 1, s) } } }

/-- An activity whose `onComplete` hook throws. -/
def throwingCompleteTool : McpActivityTool Unit :=
  { name := "a", description := "onComplete throws",
    config := { callbacks :=
      { run := fun _ s => (.ok { success := some true }, 1, s)
        onComplete := fun _ _ s => (.error "boom", s) } } }

/-- An activity whose `onSuccess` hook throws. -/
def throwingSuccessTool : McpActivityTool Unit :=
  { name := "a", description := "onSuccess throws",
    config := { callbacks :=
      { run := fun _ s => (.ok { success := some true }, 1, s)
        onSuccess := fun _ _ s => (.error "hook blew up", s) } } }

/-- A retrying activity (`maxAttempts = 3`, `backoffMs = 10`) whose `run`
fails on the first two invocations and succeeds on the third; the callback
state counts the invocations. -/
def flakyTool : McpActivityTool Nat :=
  { name := "flaky", description := "fails twice then succeeds",
    config := { retry := some { maxAttempts := 3, backoffMs := 10 },
                callbacks :=
                  { run := fun _ n =>
                      (if n < 2 then .ok { success := some false, error := some "boom" }
                       else .ok { success := some true, data := .vStr "done" }, 1, n + 1) } } }

/-- A retrying activity (`maxAttempts = 2`) whose `run` always throws. -/
def alwaysFailTool : McpActivityTool Unit :=
  { name := "bad", description := "always fails",
    config := { retry := some { maxAttempts := 2, backoffMs := 5 },
                callbacks := { run := fun _ s => (.error "boom", 1, s) } } }

/-- An activity that returns `{valid:false}` as data. -/
def valAct : McpActivityTool Unit :=
  { name := "validate", description := "reports valid:false",
    config := { callbacks := { run := fun _ s =>
        (.ok { success := some true, data := .vObj [("valid", .vBool false)] }, 1, s) } } }

/-- A trivial successful activity. -/
def noopAct : McpActivityTool Unit :=
  { name := "finish", description := "noop",
    config := { callbacks := { run := fun _ s => (.ok { success := some true }, 1, s) } } }

/-- An activity whose `run` returns a failure result. -/
def failingAct : McpActivityTool Unit :=
  { name := "shaky", description := "returns a failure result",
    config := { callbacks := { run := fun _ s =>
        (.ok { success := some false, error := some "bad input" }, 1, s) } } }

/-- The two branch rules of the branching scenario: `when: r=>r.valid` calls
`ok_tool`, `when: r=>!r.valid` calls `err_tool`. -/
def okErrBranches : List BranchConfig :=
  [ { whenFn := fun r _ _ => (r.prop "valid").truthy, call := "ok_tool" },
    { whenFn := fun r _ _ => !(r.prop "valid").truthy, call := "err_tool" } ]

/-- The one-step workflow whose single step carries the two branch rules. -/
def wfOne : McpWorkflow Unit :=
  { name := "wf", description := "one-step branching workflow",
    config := { steps := [ { activity := valAct, branches := okErrBranches } ] } }

/-- The same branch rules on the first step of a two-step workflow. -/
def wfTwo : McpWorkflow Unit :=
  { name := "wf", description := "two-step branching workflow",
    config := { steps := [ { activity := valAct, branches := okErrBranches },
                           { activity := noopAct } ] } }

/-- A one-step workflow whose single (and therefore last) step is `optional`
and fails. -/
def wfOptionalLast : McpWorkflow Unit :=
  { name := "opt", description := "one optional failing step",
    config := { steps := [ { activity := failingAct, optional := true } ] } }

/-- A one-step workflow whose single step is required and fails. -/
def wfRequired : McpWorkflow Unit :=
  { name := "req", description := "one required failing step",
    config := { steps := [ { activity := failingAct } ] } }

/-- The empty initial world state. -/
def st0 : WfState Unit := { store := [], act := () }

/-- An already-completed session. -/
def doneSession : WorkflowSession :=
  { sessionId := "s1", workflowName := "w", status := .completed, currentStep := 1,
    totalSteps := 2, memory := [("k", .vStr "v")], startedAt := 0,
    completedAt := some 5, error := none }

/-- A world state holding only `doneSession`. -/
def stDone : WfState Unit := { store := [("s1", doneSession)], clock := 9, act := () }

/-- A suggestion carried by an activity result that already targets the
workflow's continue tool. -/
def carriedCont : ToolCallSuggestion :=
  { toolName := "wf_continue", parameters := [("sessionId", .vStr "zzz")],
    condition := some "custom", priority := some 80 }

/-- An activity result with no data that carries `carriedCont`. -/
def resNoData : ActivityResult :=
  { success := some true, toolCallSuggestions := [carriedCont] }

/-- A session used to seed the store for the duplicate-creation scenario. -/
def s7a : WorkflowSession :=
  { sessionId := "dup", workflowName := "w1", status := .running, currentStep := 0,
    totalSteps := 1, startedAt := 0 }

/-- A different session with the same `sessionId` as `s7a`. -/
def s7b : WorkflowSession :=
  { sessionId := "dup", workflowName := "w2", status := .pending, currentStep := 0,
    totalSteps := 3, startedAt := 4 }

/-- The backoff sleeps recorded in an event trace, in order. -/
def sleepsOf (evs : List ActEvent) : List Nat :=
  evs.filterMap (fun e => match e with | .sleepEv ms => some ms | _ => none)

/-- A running one-step session stored under key `s0`. -/
def sessW : WorkflowSession :=
  { sessionId := "s0", workflowName := "req", status := .running, currentStep := 0,
    totalSteps := 1, startedAt := 0 }

/-- A world state holding only `sessW`. -/
def stW : WfState Unit := { store := [("s0", sessW)], act := () }

/-- An already-cancelled session. -/
def sessCancelled : WorkflowSession :=
  { sessionId := "s1", workflowName := "w", status := .cancelled, currentStep := 0,
    totalSteps := 2, startedAt := 0 }

/-- A world state whose `lastSessionId` points at `sessCancelled`. -/
def stCancelled : WfState Unit :=
  { store := [("s1", sessCancelled)], lastSessionId := some "s1", act := () }

/-! ## Helper lemmas: paths through `McpActivityTool.execute` -/

/-- When the `try` block throws and neither the `catch`-path `onFailure` nor
`onComplete` throws, `execute` returns the captured failure result. -/
lemma execute_fail_path {σ : Type} (t : McpActivityTool σ) (ctx : ActivityContext)
    (s : σ) (e : String)
    (htp : (t.tryPhase ctx s).res = .error e)
    (hF : ∀ r c a, (t.config.callbacks.onFailure r c a).1 = Except.ok ())
    (hC : ∀ r c a, (t.config.callbacks.onComplete r c a).1 = Except.ok ()) :
    (t.execute ctx s).res =
      .ok { success := some false, error := some e,
            metadata := [("executionTimeMs", Value.vNum (t.tryPhase ctx s).elapsed)] } ∧
    (t.execute ctx s).events = (t.tryPhase ctx s).events ++ [.failureEv, .completeEv] := by
  unfold McpActivityTool.execute
  rw [htp]
  simp only [hF, hC]
  exact ⟨rfl, trivial⟩

/-- When the `try` block returns normally and `onComplete` does not throw,
`execute` returns the try result with `executionTimeMs` stamped. -/
lemma execute_ok_path {σ : Type} (t : McpActivityTool σ) (ctx : ActivityContext)
    (s : σ) (r : ActivityResult)
    (htp : (t.tryPhase ctx s).res = .ok r)
    (hC : ∀ r c a, (t.config.callbacks.onComplete r c a).1 = Except.ok ()) :
    (t.execute ctx s).res =
      .ok { r with metadata := objSet r.metadata "executionTimeMs"
                     (.vNum (t.tryPhase ctx s).elapsed) } ∧
    (t.execute ctx s).events = (t.tryPhase ctx s).events ++ [.completeEv] := by
  unfold McpActivityTool.execute
  rw [htp]
  simp only [hC]
  exact ⟨trivial, trivial⟩

/-! ## C1 -/

/-- **C1** (amended): provided the `onFailure` hook invoked on the error path
and the `onComplete` hook never throw, `execute` always returns an
`ActivityResult` (it never raises), and any failure raised during input
validation, run, timeout or output validation — i.e. any throw out of the
`try` block — is captured as a result with `success = false` carrying that
error message.  (Unamended, the claim is false: a throw from `onComplete`, or
from `onFailure` on the error path, escapes `execute`; see the
counterexample.) -/
theorem execute_never_raises_amended {σ : Type} (t : McpActivityTool σ)
    (ctx : ActivityContext) (s : σ)
    (hF : ∀ r c a, (t.config.callbacks.onFailure r c a).1 = Except.ok ())
    (hC : ∀ r c a, (t.config.callbacks.onComplete r c a).1 = Except.ok ()) :
    ∃ r, (t.execute ctx s).res = Except.ok r ∧
      ∀ e, (t.tryPhase ctx s).res = Except.error e →
        r.success = some false ∧ r.error = some e := by
  cases htp : (t.tryPhase ctx s).res with
  | ok r =>
      refine ⟨_, (execute_ok_path t ctx s r htp hC).1, fun e he => ?_⟩
      cases he
  | error e =>
      refine ⟨_, (execute_fail_path t ctx s e htp hF hC).1, fun e' he => ?_⟩
      cases he
      exact ⟨rfl, rfl⟩

/-- **C1** counterexample: with an `onComplete` hook that throws, `execute`
itself raises (`boom` escapes), so `execute` does not return a result for
every configuration and context. -/
theorem execute_raises_counterexample :
    (throwingCompleteTool.execute ctx0 ()).res = Except.error "boom" := rfl

/-- **C1** witness: the amended theorem applied to the plain activity. -/
theorem execute_never_raises_witness :
    ∃ r, (plainTool.execute ctx0 ()).res = Except.ok r ∧
      ∀ e, (plainTool.tryPhase ctx0 ()).res = Except.error e →
        r.success = some false ∧ r.error = some e :=
  execute_never_raises_amended plainTool ctx0 ()
    (fun _ _ _ => rfl) (fun _ _ _ => rfl)

/-! ## Helper lemmas: the cases of `McpActivityTool.tryPhase` -/

/-- `tryPhase` when input validation throws. -/
lemma tryPhase_input_error {σ : Type} (t : McpActivityTool σ) (ctx : ActivityContext)
    (s : σ) (e : String) (hvi : t.validateInput ctx.input = .error e) :
    t.tryPhase ctx s = ⟨.error e, 0, s, []⟩ := by
  unfold McpActivityTool.tryPhase
  rw [hvi]

/-- `tryPhase` when the run (or the timeout race) throws. -/
lemma tryPhase_run_error {σ : Type} (t : McpActivityTool σ) (ctx : ActivityContext)
    (s : σ) (e : String) (hvi : t.validateInput ctx.input = .ok ())
    (hra : (t.runActivity ctx s).1 = .error e) :
    t.tryPhase ctx s =
      ⟨.error e, (t.runActivity ctx s).2.1, (t.runActivity ctx s).2.2, [.runEv]⟩ := by
  unfold McpActivityTool.tryPhase
  simp only [hvi, hra]

/-- `tryPhase` when output validation throws. -/
lemma tryPhase_output_error {σ : Type} (t : McpActivityTool σ) (ctx : ActivityContext)
    (s : σ) (e : String) (res0 : ActivityResult)
    (hvi : t.validateInput ctx.input = .ok ())
    (hra : (t.runActivity ctx s).1 = .ok res0)
    (hvo : t.validateOutput (normalizeSuccess res0).data = .error e) :
    t.tryPhase ctx s =
      ⟨.error e, (t.runActivity ctx s).2.1, (t.runActivity ctx s).2.2, [.runEv]⟩ := by
  unfold McpActivityTool.tryPhase
  simp only [hvi, hra, hvo]

/-- `tryPhase` when every phase passes and the post-execution hook call does
not throw. -/
lemma tryPhase_ok {σ : Type} (t : McpActivityTool σ) (ctx : ActivityContext)
    (s : σ) (res0 : ActivityResult)
    (hvi : t.validateInput ctx.input = .ok ())
    (hra : (t.runActivity ctx s).1 = .ok res0)
    (hvo : t.validateOutput (normalizeSuccess res0).data = .ok ())
    (hpe : (t.runPostExecutionCallbacks (normalizeSuccess res0) ctx
        (t.runActivity ctx s).2.2).1 = .ok ()) :
    t.tryPhase ctx s =
      ⟨.ok (normalizeSuccess res0), (t.runActivity ctx s).2.1,
       (t.runPostExecutionCallbacks (normalizeSuccess res0) ctx
         (t.runActivity ctx s).2.2).2.1,
       .runEv :: (t.runPostExecutionCallbacks (normalizeSuccess res0) ctx
         (t.runActivity ctx s).2.2).2.2⟩ := by
  unfold McpActivityTool.tryPhase
  simp only [hvi, hra, hvo, hpe]

/-- With non-throwing `onSuccess`/`onFailure`, `runPostExecutionCallbacks`
returns ok and records exactly the hook chosen by `result.success`. -/
lemma runPost_ok {σ : Type} (t : McpActivityTool σ) (r : ActivityResult)
    (ctx : ActivityContext) (a : σ)
    (hS : ∀ r c a, (t.config.callbacks.onSuccess r c a).1 = Except.ok ())
    (hF : ∀ r c a, (t.config.callbacks.onFailure r c a).1 = Except.ok ()) :
    (t.runPostExecutionCallbacks r ctx a).1 = .ok () ∧
    (t.runPostExecutionCallbacks r ctx a).2.2 =
      [if truthyOpt r.success then ActEvent.successEv else ActEvent.failureEv] := by
  unfold McpActivityTool.runPostExecutionCallbacks
  by_cases h : truthyOpt r.success <;> simp [h, hS, hF]

/-! ## C2 -/

/-- **C2** (amended): provided the three lifecycle hooks themselves never
throw, every call to `execute` reaches exactly one of the
`onSuccess`/`onFailure` call sites — the one chosen by the final `success`
value of the returned result — followed by the `onComplete` call site, even
when input validation, the run, the timeout, or output validation raised.
(Unamended, the claim is false: when `onSuccess` itself throws, the `catch`
block additionally invokes `onFailure`, so both hooks fire; see the
counterexample.) -/
theorem hooks_exactly_one_amended {σ : Type} (t : McpActivityTool σ)
    (ctx : ActivityContext) (s : σ)
    (hS : ∀ r c a, (t.config.callbacks.onSuccess r c a).1 = Except.ok ())
    (hF : ∀ r c a, (t.config.callbacks.onFailure r c a).1 = Except.ok ())
    (hC : ∀ r c a, (t.config.callbacks.onComplete r c a).1 = Except.ok ()) :
    ∃ r, (t.execute ctx s).res = Except.ok r ∧
      (t.execute ctx s).events.filter (fun e => e != ActEvent.runEv) =
        [if truthyOpt r.success then ActEvent.successEv else ActEvent.failureEv,
         ActEvent.completeEv] := by
  cases hvi : t.validateInput ctx.input with
  | error e =>
      have htp := tryPhase_input_error t ctx s e hvi
      obtain ⟨h1, h2⟩ := execute_fail_path t ctx s e (by rw [htp]) hF hC
      refine ⟨_, h1, ?_⟩
      rw [h2, htp]
      rfl
  | ok u =>
    cases u
    cases hra : (t.runActivity ctx s).1 with
    | error e =>
        have htp := tryPhase_run_error t ctx s e hvi hra
        obtain ⟨h1, h2⟩ := execute_fail_path t ctx s e (by rw [htp]) hF hC
        refine ⟨_, h1, ?_⟩
        rw [h2, htp]
        rfl
    | ok res0 =>
      cases hvo : t.validateOutput (normalizeSuccess res0).data with
      | error e =>
          have htp := tryPhase_output_error t ctx s e res0 hvi hra hvo
          obtain ⟨h1, h2⟩ := execute_fail_path t ctx s e (by rw [htp]) hF hC
          refine ⟨_, h1, ?_⟩
          rw [h2, htp]
          rfl
      | ok u =>
          cases u
          obtain ⟨hpe, hev⟩ := runPost_ok t (normalizeSuccess res0) ctx
            (t.runActivity ctx s).2.2 hS hF
          have htp := tryPhase_ok t ctx s res0 hvi hra hvo hpe
          obtain ⟨h1, h2⟩ := execute_ok_path t ctx s (normalizeSuccess res0)
            (by rw [htp]) hC
          refine ⟨_, h1, ?_⟩
          rw [h2, htp]
          show (List.filter _ (_ :: _ ++ _)) = _
          rw [hev]
          by_cases hd : res0.success = some false <;>
            simp [hd, normalizeSuccess, truthyOpt]

/-- **C2** counterexample: with a throwing `onSuccess` hook, a single
`execute` call reaches both the `onSuccess` and the `onFailure` call sites —
not exactly one of them. -/
theorem hooks_double_invocation_counterexample :
    (throwingSuccessTool.execute ctx0 ()).events.count ActEvent.successEv = 1 ∧
    (throwingSuccessTool.execute ctx0 ()).events.count ActEvent.failureEv = 1 := by
  exact ⟨rfl, rfl⟩

/-- **C2** witness: the amended theorem applied to the plain activity. -/
theorem hooks_exactly_one_witness :
    ∃ r, (plainTool.execute ctx0 ()).res = Except.ok r ∧
      (plainTool.execute ctx0 ()).events.filter (fun e => e != ActEvent.runEv) =
        [if truthyOpt r.success then ActEvent.successEv else ActEvent.failureEv,
         ActEvent.completeEv] :=
  hooks_exactly_one_amended plainTool ctx0 ()
    (fun _ _ _ => rfl) (fun _ _ _ => rfl) (fun _ _ _ => rfl)

/-! ## Helper lemmas: event accounting for the retry loop -/

lemma sleepsOf_nil : sleepsOf [] = [] := rfl

lemma sleepsOf_cons_run (l : List ActEvent) : sleepsOf (.runEv :: l) = sleepsOf l := rfl

lemma sleepsOf_cons_success (l : List ActEvent) :
    sleepsOf (.successEv :: l) = sleepsOf l := rfl

lemma sleepsOf_cons_failure (l : List ActEvent) :
    sleepsOf (.failureEv :: l) = sleepsOf l := rfl

lemma sleepsOf_cons_complete (l : List ActEvent) :
    sleepsOf (.completeEv :: l) = sleepsOf l := rfl

lemma sleepsOf_cons_sleep (ms : Nat) (l : List ActEvent) :
    sleepsOf (.sleepEv ms :: l) = ms :: sleepsOf l := rfl

lemma sleepsOf_append (a b : List ActEvent) :
    sleepsOf (a ++ b) = sleepsOf a ++ sleepsOf b := by
  simp [sleepsOf, List.filterMap_append]

/-- `runPostExecutionCallbacks` records no `completeEv`. -/
lemma runPost_count_complete {σ : Type} (t : McpActivityTool σ) (r : ActivityResult)
    (ctx : ActivityContext) (a : σ) :
    (t.runPostExecutionCallbacks r ctx a).2.2.count ActEvent.completeEv = 0 := by
  unfold McpActivityTool.runPostExecutionCallbacks
  by_cases h : truthyOpt r.success <;> simp [h]

/-- `runPostExecutionCallbacks` records no sleeps. -/
lemma runPost_sleeps {σ : Type} (t : McpActivityTool σ) (r : ActivityResult)
    (ctx : ActivityContext) (a : σ) :
    sleepsOf (t.runPostExecutionCallbacks r ctx a).2.2 = [] := by
  unfold McpActivityTool.runPostExecutionCallbacks
  by_cases h : truthyOpt r.success <;> simp [h, sleepsOf]

/-- The `try` block records no `completeEv`. -/
lemma tryPhase_count_complete {σ : Type} (t : McpActivityTool σ)
    (ctx : ActivityContext) (s : σ) :
    (t.tryPhase ctx s).events.count ActEvent.completeEv = 0 := by
  unfold McpActivityTool.tryPhase
  split
  · rfl
  · split
    · rfl
    · split
      · rfl
      · split <;> simp [List.count_cons, runPost_count_complete]

/-- The `try` block records no sleeps. -/
lemma tryPhase_sleeps {σ : Type} (t : McpActivityTool σ)
    (ctx : ActivityContext) (s : σ) :
    sleepsOf (t.tryPhase ctx s).events = [] := by
  unfold McpActivityTool.tryPhase
  split
  · rfl
  · split
    · rfl
    · split
      · rfl
      · split <;> simp [sleepsOf_cons_run, runPost_sleeps]

/-- One `execute` call appends either just `completeEv` or
`failureEv, completeEv` to the try-block events, whatever the hooks do. -/
lemma execute_events_shape {σ : Type} (t : McpActivityTool σ)
    (ctx : ActivityContext) (s : σ) :
    (t.execute ctx s).events = (t.tryPhase ctx s).events ++ [ActEvent.completeEv] ∨
    (t.execute ctx s).events =
      (t.tryPhase ctx s).events ++ [ActEvent.failureEv, ActEvent.completeEv] := by
  unfold McpActivityTool.execute
  split
  · split <;> exact Or.inl rfl
  · split
    · exact Or.inr rfl
    · split <;> exact Or.inr rfl

/-- One `execute` call records exactly one `completeEv`. -/
lemma execute_count_complete {σ : Type} (t : McpActivityTool σ)
    (ctx : ActivityContext) (s : σ) :
    (t.execute ctx s).events.count ActEvent.completeEv = 1 := by
  rcases execute_events_shape t ctx s with h | h <;>
    simp [h, List.count_append, tryPhase_count_complete]

/-- One `execute` call records no sleeps. -/
lemma execute_sleeps {σ : Type} (t : McpActivityTool σ)
    (ctx : ActivityContext) (s : σ) :
    sleepsOf (t.execute ctx s).events = [] := by
  rcases execute_events_shape t ctx s with h | h <;>
    rw [h, sleepsOf_append, tryPhase_sleeps] <;> rfl

/-- One retry-loop iteration: the attempt succeeded. -/
lemma retryLoop_step_success {σ : Type} (t : McpActivityTool σ) (rc : RetryConfig)
    (ctx : ActivityContext) (s : σ) (r : ActivityResult) (n attempt : Nat)
    (le : Option String) (evs : List ActEvent)
    (hres : (t.execute ctx s).res = Except.ok r)
    (hsucc : truthyOpt r.success = true) :
    t.retryLoop rc ctx (n + 1) attempt le s evs =
      ⟨Except.ok r, (t.execute ctx s).state, evs ++ (t.execute ctx s).events⟩ := by
  conv_lhs => unfold McpActivityTool.retryLoop
  simp [hres, hsucc]

/-- One retry-loop iteration: the attempt returned an unsuccessful result. -/
lemma retryLoop_step_failresult {σ : Type} (t : McpActivityTool σ) (rc : RetryConfig)
    (ctx : ActivityContext) (s : σ) (r : ActivityResult) (n attempt : Nat)
    (le : Option String) (evs : List ActEvent)
    (hres : (t.execute ctx s).res = Except.ok r)
    (hsucc : truthyOpt r.success = false) :
    t.retryLoop rc ctx (n + 1) attempt le s evs =
      (if n = 0 then
        t.retryLoop rc ctx n (attempt + 1) (some (jsOrStr r.error "Activity failed"))
          (t.execute ctx s).state (evs ++ (t.execute ctx s).events)
      else
        t.retryLoop rc ctx n (attempt + 1) (some (jsOrStr r.error "Activity failed"))
          (t.execute ctx s).state
          (evs ++ (t.execute ctx s).events ++ [.sleepEv (rc.backoffMs * 2 ^ attempt)])) := by
  conv_lhs => unfold McpActivityTool.retryLoop
  simp [hres, hsucc]

/-- One retry-loop iteration: the attempt threw. -/
lemma retryLoop_step_throw {σ : Type} (t : McpActivityTool σ) (rc : RetryConfig)
    (ctx : ActivityContext) (s : σ) (e : String) (n attempt : Nat)
    (le : Option String) (evs : List ActEvent)
    (hres : (t.execute ctx s).res = Except.error e) :
    t.retryLoop rc ctx (n + 1) attempt le s evs =
      (if n = 0 then
        t.retryLoop rc ctx n (attempt + 1) (some e)
          (t.execute ctx s).state (evs ++ (t.execute ctx s).events)
      else
        t.retryLoop rc ctx n (attempt + 1) (some e)
          (t.execute ctx s).state
          (evs ++ (t.execute ctx s).events ++ [.sleepEv (rc.backoffMs * 2 ^ attempt)])) := by
  conv_lhs => unfold McpActivityTool.retryLoop
  simp [hres]

/-- The retry loop makes at most `rem` further attempts (at least one when
`rem ≥ 1`), counted by `completeEv` occurrences; its backoff sleeps follow the
exponential schedule `backoffMs * 2^(attempt+i)`; and it returns either a
successful result from some attempt or the constructed failure embedding
`maxAttempts` and the last error. -/
lemma retryLoop_spec {σ : Type} (t : McpActivityTool σ) (rc : RetryConfig)
    (ctx : ActivityContext) :
    ∀ (rem : Nat) (attempt : Nat) (le : Option String) (s : σ) (evs : List ActEvent),
    ∃ k, k ≤ rem ∧ (1 ≤ rem → 1 ≤ k) ∧
      (t.retryLoop rc ctx rem attempt le s evs).events.count ActEvent.completeEv
        = evs.count ActEvent.completeEv + k ∧
      sleepsOf (t.retryLoop rc ctx rem attempt le s evs).events
        = sleepsOf evs ++
          (List.range (k - 1)).map (fun i => rc.backoffMs * 2 ^ (attempt + i)) ∧
      ((∃ r, (t.retryLoop rc ctx rem attempt le s evs).res = Except.ok r ∧
          truthyOpt r.success = true) ∨
       (∃ m, (t.retryLoop rc ctx rem attempt le s evs).res =
          Except.ok { success := some false,
                      error := some ("Activity failed after " ++ toString rc.maxAttempts ++
                        " attempts: " ++ m) })) := by
  intro rem
  induction rem with
  | zero =>
      intro attempt le s evs
      exact ⟨0, le_rfl, by omega, by simp [McpActivityTool.retryLoop],
        by simp [McpActivityTool.retryLoop], Or.inr ⟨showOptStr le, rfl⟩⟩
  | succ n ih =>
      intro attempt le s evs
      cases hres : (t.execute ctx s).res with
      | ok r =>
          by_cases hsucc : truthyOpt r.success
          · rw [retryLoop_step_success t rc ctx s r n attempt le evs hres hsucc]
            refine ⟨1, by omega, fun _ => le_rfl, ?_, ?_, Or.inl ⟨r, rfl, hsucc⟩⟩
            · simp [List.count_append, execute_count_complete]
            · simp [sleepsOf_append, execute_sleeps]
          · rw [retryLoop_step_failresult t rc ctx s r n attempt le evs hres
              (Bool.not_eq_true _ ▸ hsucc)]
            by_cases hn : n = 0
            · subst hn
              rw [if_pos rfl]
              obtain ⟨k', hk'le, _, hcount, hsleeps, hdisj⟩ :=
                ih (attempt + 1) (some (jsOrStr r.error "Activity failed"))
                  (t.execute ctx s).state (evs ++ (t.execute ctx s).events)
              have hk0 : k' = 0 := Nat.le_zero.mp hk'le
              subst hk0
              refine ⟨1, le_rfl, fun _ => le_rfl, ?_, ?_, hdisj⟩
              · rw [hcount]
                simp [List.count_append, execute_count_complete]
              · rw [hsleeps]
                simp [sleepsOf_append, execute_sleeps]
            · rw [if_neg hn]
              obtain ⟨k', hk'le, hk'pos, hcount, hsleeps, hdisj⟩ :=
                ih (attempt + 1) (some (jsOrStr r.error "Activity failed"))
                  (t.execute ctx s).state
                  (evs ++ (t.execute ctx s).events ++
                    [.sleepEv (rc.backoffMs * 2 ^ attempt)])
              have hk1 : 1 ≤ k' := hk'pos (by omega)
              refine ⟨k' + 1, by omega, fun _ => by omega, ?_, ?_, hdisj⟩
              · rw [hcount]
                simp [List.count_append, execute_count_complete]
                omega
              · rw [hsleeps]
                simp only [sleepsOf_append, execute_sleeps, sleepsOf_cons_sleep,
                  sleepsOf_nil, List.append_nil, Nat.add_sub_cancel]
                obtain ⟨j, hj⟩ : ∃ j, k' = j + 1 := ⟨k' - 1, by omega⟩
                subst hj
                rw [List.range_succ_eq_map, List.map_cons, List.map_map]
                have hm : ∀ i ∈ List.range j,
                    ((fun i => rc.backoffMs * 2 ^ (attempt + i)) ∘ Nat.succ) i =
                    (fun i => rc.backoffMs * 2 ^ (attempt + 1 + i)) i := by
                  intro i _
                  show rc.backoffMs * 2 ^ (attempt + Nat.succ i) =
                    rc.backoffMs * 2 ^ (attempt + 1 + i)
                  have : attempt + Nat.succ i = attempt + 1 + i := by omega
                  rw [this]
                rw [List.map_congr_left hm]
                simp [Nat.add_zero, List.append_assoc]
      | error e =>
          rw [retryLoop_step_throw t rc ctx s e n attempt le evs hres]
          by_cases hn : n = 0
          · subst hn
            rw [if_pos rfl]
            obtain ⟨k', hk'le, _, hcount, hsleeps, hdisj⟩ :=
              ih (attempt + 1) (some e) (t.execute ctx s).state
                (evs ++ (t.execute ctx s).events)
            have hk0 : k' = 0 := Nat.le_zero.mp hk'le
            subst hk0
            refine ⟨1, le_rfl, fun _ => le_rfl, ?_, ?_, hdisj⟩
            · rw [hcount]
              simp [List.count_append, execute_count_complete]
            · rw [hsleeps]
              simp [sleepsOf_append, execute_sleeps]
          · rw [if_neg hn]
            obtain ⟨k', hk'le, hk'pos, hcount, hsleeps, hdisj⟩ :=
              ih (attempt + 1) (some e) (t.execute ctx s).state
                (evs ++ (t.execute ctx s).events ++
                  [.sleepEv (rc.backoffMs * 2 ^ attempt)])
            have hk1 : 1 ≤ k' := hk'pos (by omega)
            refine ⟨k' + 1, by omega, fun _ => by omega, ?_, ?_, hdisj⟩
            · rw [hcount]
              simp [List.count_append, execute_count_complete]
              omega
            · rw [hsleeps]
              simp only [sleepsOf_append, execute_sleeps, sleepsOf_cons_sleep,
                sleepsOf_nil, List.append_nil, Nat.add_sub_cancel]
              obtain ⟨j, hj⟩ : ∃ j, k' = j + 1 := ⟨k' - 1, by omega⟩
              subst hj
              rw [List.range_succ_eq_map, List.map_cons, List.map_map]
              have hm : ∀ i ∈ List.range j,
                  ((fun i => rc.backoffMs * 2 ^ (attempt + i)) ∘ Nat.succ) i =
                  (fun i => rc.backoffMs * 2 ^ (attempt + 1 + i)) i := by
                intro i _
                show rc.backoffMs * 2 ^ (attempt + Nat.succ i) =
                  rc.backoffMs * 2 ^ (attempt + 1 + i)
                have : attempt + Nat.succ i = attempt + 1 + i := by omega
                rw [this]
              rw [List.map_congr_left hm]
              simp [Nat.add_zero, List.append_assoc]

/-! ## C3 -/

/-- **C3**: `executeWithRetry` with no retry policy is exactly `execute`; with
a policy it makes `k ≤ maxAttempts` calls to `execute` (counted by their
`completeEv`s), sleeps `backoffMs * 2^i` between consecutive attempts
(`i = 0, 1, …`, i.e. `backoffMs * 2^(attempt-1)` for 1-based attempts), and
returns either a successful result of some attempt (stopping early) or a
single failure whose message embeds `maxAttempts` and the last underlying
error.  In particular, with `maxAttempts = 3, backoffMs = 10` and a run that
fails twice then succeeds, the run is invoked exactly 3 times, the sleeps are
`[10, 20]`, and the result is a success; and a run that always throws `boom`
under `maxAttempts = 2` yields
`"Activity failed after 2 attempts: boom"`. -/
theorem executeWithRetry_spec {σ : Type} (t : McpActivityTool σ)
    (ctx : ActivityContext) (s : σ) :
    (t.config.retry = none → t.executeWithRetry ctx s = t.execute ctx s) ∧
    (∀ rc, t.config.retry = some rc →
      ∃ k, k ≤ rc.maxAttempts ∧
        (t.executeWithRetry ctx s).events.count ActEvent.completeEv = k ∧
        sleepsOf (t.executeWithRetry ctx s).events =
          (List.range (k - 1)).map (fun i => rc.backoffMs * 2 ^ i) ∧
        ((∃ r, (t.executeWithRetry ctx s).res = Except.ok r ∧
            truthyOpt r.success = true) ∨
         (∃ m, (t.executeWithRetry ctx s).res =
            Except.ok { success := some false,
                        error := some ("Activity failed after " ++
                          toString rc.maxAttempts ++ " attempts: " ++ m) }))) ∧
    ((flakyTool.executeWithRetry ctx0 0).events.count ActEvent.runEv = 3 ∧
     sleepsOf (flakyTool.executeWithRetry ctx0 0).events = [10, 20] ∧
     (flakyTool.executeWithRetry ctx0 0).res =
       Except.ok { success := some true, data := .vStr "done",
                   metadata := [("executionTimeMs", Value.vNum 1)] }) ∧
    (alwaysFailTool.executeWithRetry ctx0 ()).res =
      Except.ok { success := some false,
                  error := some "Activity failed after 2 attempts: boom" } := by
  refine ⟨?_, ?_, ⟨rfl, rfl, rfl⟩, rfl⟩
  · intro h
    unfold McpActivityTool.executeWithRetry
    rw [h]
  · intro rc hrc
    have hloop := retryLoop_spec t rc ctx rc.maxAttempts 0 none s []
    obtain ⟨k, hkle, _, hcount, hsleeps, hdisj⟩ := hloop
    have hunf : t.executeWithRetry ctx s = t.retryLoop rc ctx rc.maxAttempts 0 none s [] := by
      unfold McpActivityTool.executeWithRetry
      rw [hrc]
    rw [hunf]
    refine ⟨k, hkle, ?_, ?_, hdisj⟩
    · simpa using hcount
    · simpa [sleepsOf_nil, Nat.zero_add] using hsleeps

/-- **C3** witness: the policy conjunct of the theorem applied to `flakyTool`
(whose retry policy is `{maxAttempts := 3, backoffMs := 10}`). -/
theorem executeWithRetry_witness :
    ∃ k, k ≤ 3 ∧
      (flakyTool.executeWithRetry ctx0 0).events.count ActEvent.completeEv = k ∧
      sleepsOf (flakyTool.executeWithRetry ctx0 0).events =
        (List.range (k - 1)).map (fun i => 10 * 2 ^ i) ∧
      ((∃ r, (flakyTool.executeWithRetry ctx0 0).res = Except.ok r ∧
          truthyOpt r.success = true) ∨
       (∃ m, (flakyTool.executeWithRetry ctx0 0).res =
          Except.ok { success := some false,
                      error := some ("Activity failed after " ++ toString 3 ++
                        " attempts: " ++ m) })) :=
  (executeWithRetry_spec flakyTool ctx0 0).2.1 ⟨3, 10⟩ rfl

/-! ## Helper lemmas: the session store and manager -/

lemma storeGet_set_self (store : Store) (k : String) (v : WorkflowSession) :
    storeGet (storeSet store k v) k = some v := by
  induction store with
  | nil => simp [storeSet, storeGet, List.find?]
  | cons kv rest ih =>
      by_cases h : kv.1 = k
      · simp [storeSet, storeGet, List.find?, h]
      · simp only [storeSet, h, ite_false]
        simp only [storeGet, List.find?, h, decide_eq_true_eq] at ih ⊢
        simpa [h] using ih

lemma storeGet_set_ne (store : Store) (k k' : String) (v : WorkflowSession)
    (h : k' ≠ k) : storeGet (storeSet store k v) k' = storeGet store k' := by
  induction store with
  | nil => simp [storeSet, storeGet, List.find?, Ne.symm h]
  | cons kv rest ih =>
      by_cases hk : kv.1 = k
      · subst hk
        simp [storeSet, storeGet, List.find?, h, Ne.symm h]
      · simp only [storeSet, hk, ite_false]
        by_cases hk' : kv.1 = k'
        · simp [storeGet, List.find?, hk']
        · simp only [storeGet, List.find?, hk'] at ih ⊢
          simpa [hk'] using ih

/-- Setting the same key twice keeps only the second value. -/
lemma storeSet_set_same (store : Store) (k : String) (v w : WorkflowSession) :
    storeSet (storeSet store k v) k w = storeSet store k w := by
  induction store with
  | nil => simp [storeSet]
  | cons kv rest ih =>
      by_cases h : kv.1 = k
      · simp [storeSet, h]
      · simp [storeSet, h, ih]

/-- `updateSession` succeeds on an existing session, merging the updates. -/
lemma managerUpdate_eq {σ : Type} (sid : String) (u : SessionUpdates)
    (st : WfState σ) (sess : WorkflowSession)
    (h : storeGet st.store sid = some sess) :
    WorkflowSessionManager.updateSession sid u st =
      (.ok (), { st with store := storeSet st.store sid (applyUpdates sess u) }) := by
  unfold WorkflowSessionManager.updateSession InMemoryWorkflowStore.updateSession
  rw [h]

/-- `setMemory` succeeds on an existing session. -/
lemma managerSetMemory_eq {σ : Type} (sid key : String) (v : Value)
    (st : WfState σ) (sess : WorkflowSession)
    (h : storeGet st.store sid = some sess) :
    WorkflowSessionManager.setMemory sid key v st =
      (.ok (),
       { st with store := storeSet st.store sid { sess with memory := objSet sess.memory key v } }) := by
  unfold WorkflowSessionManager.setMemory InMemoryWorkflowStore.setMemory
  rw [h]

/-- `recordStepExecution` succeeds on an existing session. -/
lemma managerRecord_eq {σ : Type} (sid : String) (stepIndex : Nat)
    (activityName : String) (startedAt completedAt : Nat) (success : Bool)
    (error : Option String) (st : WfState σ) (sess : WorkflowSession)
    (h : storeGet st.store sid = some sess) :
    WorkflowSessionManager.recordStepExecution sid stepIndex activityName
        startedAt completedAt success error st =
      (.ok (),
       { st with store := storeSet st.store sid { sess with history := sess.history ++ [{ stepIndex := stepIndex, activityName := activityName, startedAt := startedAt, completedAt := completedAt, success := success, error := error }] } }) := by
  unfold WorkflowSessionManager.recordStepExecution InMemoryWorkflowStore.recordStepExecution
  rw [h]

/-- `completeSession` succeeds on an existing session: it observes the clock
and overwrites `status`, `completedAt` and `error`. -/
lemma managerComplete_eq {σ : Type} (sid : String) (status : WorkflowStatus)
    (error : Option String) (st : WfState σ) (sess : WorkflowSession)
    (h : storeGet st.store sid = some sess) :
    WorkflowSessionManager.completeSession sid status error st =
      (.ok (),
       { st with clock := st.clock + 1, store := storeSet st.store sid { sess with status := status, completedAt := some st.clock, error := error } }) := by
  unfold WorkflowSessionManager.completeSession
  rw [managerUpdate_eq sid _ _ sess (by simpa [tick] using h)]
  rfl

/-- `failWorkflow` on an existing session: mark failed, then the
`onFailure`/`onComplete` notifications. -/
lemma failWorkflow_eq {σ : Type} (wf : McpWorkflow σ) (sid : String) (e : String)
    (st : WfState σ) (sess : WorkflowSession)
    (h : storeGet st.store sid = some sess) :
    wf.failWorkflow sid e st =
      (.ok (),
       { st with clock := st.clock + 1,
                 store := storeSet st.store sid { sess with status := .failed, completedAt := some st.clock, error := some e },
                 wfEvents := st.wfEvents ++ [.failureEv e, .completeEv .failed] }) := by
  unfold McpWorkflow.failWorkflow
  rw [managerComplete_eq sid .failed (some e) st sess h]

/-- `handleFailedStep` on an existing session: fail the workflow with the
defaulted message and return the error response carrying the failed session. -/
lemma handleFailedStep_eq {σ : Type} (wf : McpWorkflow σ) (sid : String)
    (stepIndex : Nat) (activityName : String) (error : Option String)
    (st : WfState σ) (sess : WorkflowSession)
    (h : storeGet st.store sid = some sess) :
    wf.handleFailedStep sid stepIndex activityName error st =
      (.ok { message := "Workflow failed at step " ++ toString stepIndex ++ " (" ++
               activityName ++ "): " ++ showOptStr error
             isError := true
             session := some { sess with status := .failed, completedAt := some st.clock, error := some (jsOrStr error "Activity failed without error message") } },
       { st with clock := st.clock + 1,
                 store := storeSet st.store sid { sess with status := .failed, completedAt := some st.clock, error := some (jsOrStr error "Activity failed without error message") },
                 wfEvents := st.wfEvents ++
                   [.failureEv (jsOrStr error "Activity failed without error message"),
                    .completeEv .failed] }) := by
  unfold McpWorkflow.handleFailedStep
  rw [failWorkflow_eq wf sid _ st sess h]
  simp only [InMemoryWorkflowStore.getSession, storeGet_set_self]

/-- `completeWorkflow` on an existing session: mark completed (clearing
`error`), notify, and return the completion response. -/
lemma completeWorkflow_eq {σ : Type} (wf : McpWorkflow σ) (sid : String)
    (st : WfState σ) (sess : WorkflowSession)
    (h : storeGet st.store sid = some sess) :
    wf.completeWorkflow sid st =
      (.ok { message := "Workflow completed successfully"
             session := some { sess with status := .completed, completedAt := some st.clock, error := none } },
       { st with clock := st.clock + 1,
                 store := storeSet st.store sid { sess with status := .completed, completedAt := some st.clock, error := none },
                 wfEvents := st.wfEvents ++ [.successEv, .completeEv .completed] }) := by
  unfold McpWorkflow.completeWorkflow
  simp only [InMemoryWorkflowStore.getSession]
  rw [h]
  rw [managerComplete_eq sid .completed none st sess h]
  simp only [InMemoryWorkflowStore.getSession, storeGet_set_self]

/-- `cancel` on an existing session: unconditionally mark cancelled and invoke
only `onComplete`. -/
lemma cancel_eq {σ : Type} (wf : McpWorkflow σ) (sid : String)
    (st : WfState σ) (sess : WorkflowSession)
    (h : storeGet st.store sid = some sess) :
    wf.cancel sid st =
      (.ok (),
       { st with clock := st.clock + 1,
                 store := storeSet st.store sid { sess with status := .cancelled, completedAt := some st.clock, error := none },
                 wfEvents := st.wfEvents ++ [.completeEv .cancelled] }) := by
  unfold McpWorkflow.cancel
  simp only [InMemoryWorkflowStore.getSession]
  rw [h]
  rw [managerComplete_eq sid .cancelled none st sess h]

/-- `continue()` on a session whose status is not `running` raises the
status-naming error and leaves the world state unchanged. -/
lemma continue_notRunning {σ : Type} (wf : McpWorkflow σ) (fuel : Nat)
    (st : WfState σ) (sid : String) (sess : WorkflowSession)
    (hlast : st.lastSessionId = some sid)
    (h : storeGet st.store sid = some sess)
    (hst : sess.status ≠ .running) :
    wf.continueWorkflow fuel st =
      (.error ("Cannot continue workflow in status: " ++ statusStr sess.status), st) := by
  unfold McpWorkflow.continueWorkflow
  rw [hlast]
  simp only [InMemoryWorkflowStore.getSession]
  rw [h]
  simp [hst]

/-- `runActivityForStep` when the activity call returns a result `r` (rather
than rejecting): the execution is recorded in the history and `r.data` is
written into memory under the activity's name, regardless of `r.success`. -/
lemma runActivityForStep_eq {σ : Type} (wf : McpWorkflow σ)
    (activity : McpActivityTool σ) (sess : WorkflowSession) (stepIndex : Nat)
    (stepInput : Value) (st : WfState σ) (step : WorkflowStep σ)
    (r : ActivityResult) (a2 : σ) (ev2 : List ActEvent) (scur : WorkflowSession)
    (h2 : wf.config.steps.get? stepIndex = some step)
    (hex : activity.execute (wf.stepContext step sess stepIndex stepInput) st.act =
      ⟨Except.ok r, a2, ev2⟩)
    (h : storeGet st.store sess.sessionId = some scur) :
    wf.runActivityForStep activity sess stepIndex stepInput st =
      (.ok r,
       { st with clock := st.clock + 2, act := a2, actEvents := st.actEvents ++ ev2,
                 store := storeSet st.store sess.sessionId { scur with history := scur.history ++ [{ stepIndex := stepIndex, activityName := activity.name, startedAt := st.clock, completedAt := st.clock + 1, success := r.success.getD true, error := r.error }], memory := objSet scur.memory activity.name r.data } }) := by
  unfold McpWorkflow.runActivityForStep
  simp only [h2, hex, WorkflowSessionManager.recordStepExecution,
    InMemoryWorkflowStore.recordStepExecution, WorkflowSessionManager.setMemory,
    InMemoryWorkflowStore.setMemory, h, storeGet_set_self, storeSet_set_same]

/-- `x || d` is nonempty whenever the default is. -/
lemma jsOrStr_ne_empty (x : Option String) (d : String) (hd : d ≠ "") :
    jsOrStr x d ≠ "" := by
  cases x with
  | none => simpa [jsOrStr] using hd
  | some s =>
      by_cases hs : s = "" <;> simp [jsOrStr, hs, hd]

/-- `handleFailedStep` on a state holding the session: it returns an error
response, the stored session becomes `failed` with a non-empty error, and the
workflow's `onFailure` then `onComplete` notifications fire. -/
lemma handleFailedStep_spec {σ : Type} (wf : McpWorkflow σ) (sid : String)
    (stepIndex : Nat) (activityName : String) (error : Option String)
    (st : WfState σ) (sess : WorkflowSession)
    (h : storeGet st.store sid = some sess) :
    ∃ resp st', wf.handleFailedStep sid stepIndex activityName error st =
        (.ok resp, st') ∧
      resp.isError = true ∧
      ∃ sess' m, storeGet st'.store sid = some sess' ∧
        sess'.status = .failed ∧ sess'.error = some m ∧ m ≠ "" ∧
        st'.wfEvents = st.wfEvents ++ [.failureEv m, .completeEv .failed] := by
  refine ⟨_, _, handleFailedStep_eq wf sid stepIndex activityName error st sess h,
    rfl, ?_⟩
  refine ⟨_, jsOrStr error "Activity failed without error message",
    storeGet_set_self _ _ _, rfl, rfl, jsOrStr_ne_empty _ _ (by simp), rfl⟩

/-- `handleSuccessfulStep` on a non-last step: no state change; the response
carries the built suggestions and the next step's activity. -/
lemma handleSuccessfulStep_notLast {σ : Type} (wf : McpWorkflow σ) (sid : String)
    (stepIndex : Nat) (activityName : String) (result : ActivityResult)
    (stepInput : Value) (st : WfState σ) (ns : WorkflowStep σ)
    (hNotLast : (stepIndex == wf.config.steps.length - 1) = false)
    (hns : wf.config.steps.get? (stepIndex + 1) = some ns) :
    wf.handleSuccessfulStep sid stepIndex activityName result stepInput st =
      (.ok { message := "Step " ++ toString stepIndex ++ " (" ++ activityName ++
               ") completed successfully"
             nextInstructions :=
               wf.buildToolCallSuggestions stepIndex result sid stepInput st.store
             nextActivity := some ns.activity.name
             session := InMemoryWorkflowStore.getSession st.store sid }, st) := by
  unfold McpWorkflow.handleSuccessfulStep
  simp only [hNotLast, Bool.false_eq_true, if_false, hns]

/-- `handleSuccessfulStep` on the last step completes the workflow without
building any suggestions. -/
lemma handleSuccessfulStep_last {σ : Type} (wf : McpWorkflow σ) (sid : String)
    (stepIndex : Nat) (activityName : String) (result : ActivityResult)
    (stepInput : Value) (st : WfState σ)
    (hLast : (stepIndex == wf.config.steps.length - 1) = true) :
    wf.handleSuccessfulStep sid stepIndex activityName result stepInput st =
      wf.completeWorkflow sid st := by
  unfold McpWorkflow.handleSuccessfulStep
  simp only [hLast, if_true]

/-! ## C4 -/

/-- **C4** (amended): for every workflow and every step whose activity call
returns a result with falsy `success` (no skip condition interfering): when
the step is not `optional`, the session becomes `failed` with a non-empty
`error`, the workflow's `onFailure` then `onComplete` callbacks fire, and an
error response is returned; when the step is `optional`, execution proceeds
exactly as if it had succeeded — the status is left unchanged (`running`)
when the step is not the last, but when the optional step is the **last**
step the workflow completes and the status becomes `completed`, not
`running` (the unamended claim fails there; see the counterexample). -/
theorem step_failure_handling_amended {σ : Type} (wf : McpWorkflow σ) (fuel : Nat)
    (sid : String) (i : Nat) (stepInput : Value) (st : WfState σ)
    (sess : WorkflowSession) (step : WorkflowStep σ) (r : ActivityResult)
    (a2 : σ) (ev2 : List ActEvent)
    (h : storeGet st.store sid = some sess)
    (hsid : sess.sessionId = sid)
    (h2 : wf.config.steps.get? i = some step)
    (hskip : wf.shouldSkipStep step sess = false)
    (hex : step.activity.execute (wf.stepContext step sess i stepInput) st.act =
      ⟨Except.ok r, a2, ev2⟩)
    (hfail : truthyOpt r.success = false) :
    (step.optional = false →
      ∃ resp st', wf.executeStep fuel sid i stepInput st = (.ok resp, st') ∧
        resp.isError = true ∧
        ∃ sess' m, storeGet st'.store sid = some sess' ∧
          sess'.status = .failed ∧ sess'.error = some m ∧ m ≠ "" ∧
          st'.wfEvents = st.wfEvents ++ [.failureEv m, .completeEv .failed]) ∧
    (step.optional = true → i ≠ wf.config.steps.length - 1 →
      ∃ resp st' sess', wf.executeStep fuel sid i stepInput st = (.ok resp, st') ∧
        resp.isError = false ∧
        storeGet st'.store sid = some sess' ∧ sess'.status = sess.status ∧
        st'.wfEvents = st.wfEvents) ∧
    (step.optional = true → i = wf.config.steps.length - 1 →
      ∃ resp st' sess', wf.executeStep fuel sid i stepInput st = (.ok resp, st') ∧
        resp.isError = false ∧
        storeGet st'.store sid = some sess' ∧ sess'.status = .completed) := by
  have hras := runActivityForStep_eq wf step.activity sess i stepInput
    { st with store := storeSet st.store sid { sess with currentStep := i } }
    step r a2 ev2 { sess with currentStep := i } h2
    (by simpa using hex)
    (by rw [hsid]; simpa using storeGet_set_self st.store sid _)
  rw [hsid] at hras
  have hred : wf.executeStep fuel sid i stepInput st =
      (match (if (!truthyOpt r.success && !step.optional) = true then
          wf.handleFailedStep sid i step.activity.name r.error
            { st with clock := st.clock + 2, act := a2, actEvents := st.actEvents ++ ev2,
                      store := storeSet st.store sid { sess with currentStep := i, history := sess.history ++ [{ stepIndex := i, activityName := step.activity.name, startedAt := st.clock, completedAt := st.clock + 1, success := r.success.getD true, error := r.error }], memory := objSet sess.memory step.activity.name r.data } }
        else
          wf.handleSuccessfulStep sid i step.activity.name r stepInput
            { st with clock := st.clock + 2, act := a2, actEvents := st.actEvents ++ ev2,
                      store := storeSet st.store sid { sess with currentStep := i, history := sess.history ++ [{ stepIndex := i, activityName := step.activity.name, startedAt := st.clock, completedAt := st.clock + 1, success := r.success.getD true, error := r.error }], memory := objSet sess.memory step.activity.name r.data } }) with
       | (.ok resp, st2) => (.ok resp, st2)
       | (.error e, st2) => wf.handleFailedStep sid i step.activity.name (some e) st2) := by
    unfold McpWorkflow.executeStep
    simp only [InMemoryWorkflowStore.getSession, h, h2,
      WorkflowSessionManager.updateSession, InMemoryWorkflowStore.updateSession,
      applyUpdates, Option.getD_none, Option.getD_some, hskip, Bool.false_eq_true,
      if_false, hras, hsid, storeSet_set_same]
  set entry : HistoryEntry := { stepIndex := i, activityName := step.activity.name, startedAt := st.clock, completedAt := st.clock + 1, success := r.success.getD true, error := r.error } with hentry
  set sess2 : WorkflowSession := { sess with currentStep := i, memory := objSet sess.memory step.activity.name r.data, history := sess.history ++ [entry] } with hsess2
  set stR : WfState σ := { st with clock := st.clock + 2, act := a2, actEvents := st.actEvents ++ ev2, store := storeSet st.store sid sess2 } with hstR
  refine ⟨?_, ?_, ?_⟩
  · intro hopt
    rw [hred]
    simp only [hfail, hopt, Bool.not_false, Bool.and_self, eq_self_iff_true, if_true]
    obtain ⟨resp0, st0, heq, hie, sess', m, hget, hstat, herr, hm, hev⟩ :=
      handleFailedStep_spec wf sid i step.activity.name r.error stR sess2
        (storeGet_set_self _ _ _)
    rw [heq]
    exact ⟨resp0, st0, rfl, hie, sess', m, hget, hstat, herr, hm, hev⟩
  · intro hopt hNotLast
    rw [hred]
    simp only [hfail, hopt, Bool.not_false, Bool.not_true, Bool.and_false,
      Bool.false_eq_true, if_false]
    obtain ⟨hlen, -⟩ := List.get?_eq_some.mp h2
    obtain ⟨ns, hns⟩ : ∃ ns, wf.config.steps.get? (i + 1) = some ns := by
      cases hq : wf.config.steps.get? (i + 1) with
      | none => exact absurd (List.get?_eq_none.mp hq) (by omega)
      | some x => exact ⟨x, rfl⟩
    have hnl : (i == wf.config.steps.length - 1) = false := by
      simpa using hNotLast
    rw [handleSuccessfulStep_notLast wf sid i step.activity.name r stepInput stR ns hnl hns]
    exact ⟨_, stR, sess2, rfl, rfl, storeGet_set_self _ _ _, rfl, rfl⟩
  · intro hopt hLast
    rw [hred]
    simp only [hfail, hopt, Bool.not_false, Bool.not_true, Bool.and_false,
      Bool.false_eq_true, if_false]
    have hl : (i == wf.config.steps.length - 1) = true := by simpa using hLast
    rw [handleSuccessfulStep_last wf sid i step.activity.name r stepInput stR hl]
    rw [completeWorkflow_eq wf sid stR sess2 (storeGet_set_self _ _ _)]
    exact ⟨_, _, _, rfl, rfl, storeGet_set_self _ _ _, rfl⟩

/-- **C4** counterexample: a one-step workflow whose single (optional) step
returns a failure result ends with session status `completed`, not `running`
— execution "proceeds as if the step had succeeded", which for a last step
completes the workflow. -/
theorem optional_last_step_counterexample :
    ((wfOptionalLast.start (.vObj [("x", .vNum 1)]) st0).2.store.map
      (fun kv => kv.2.status)) = [WorkflowStatus.completed] := rfl

/-- **C4** witness: the required-step conjunct of the theorem applied to a
concrete one-step workflow whose activity fails. -/
theorem step_failure_witness :
    ∃ resp st', wfRequired.executeStep 2 "s0" 0 Value.undef stW = (.ok resp, st') ∧
      resp.isError = true ∧
      ∃ sess' m, storeGet st'.store "s0" = some sess' ∧
        sess'.status = .failed ∧ sess'.error = some m ∧ m ≠ "" ∧
        st'.wfEvents = stW.wfEvents ++ [.failureEv m, .completeEv .failed] :=
  (step_failure_handling_amended wfRequired 2 "s0" 0 Value.undef stW sessW
    { activity := failingAct }
    { success := some false, error := some "bad input",
      metadata := [("executionTimeMs", Value.vNum 1)] }
    () [.runEv, .failureEv, .completeEv]
    rfl rfl rfl rfl rfl rfl).1 rfl

/-! ## C5 -/

/-- **C5**: `continue()` on the orchestrator's current session rejects with
`"Cannot continue workflow in status: <status>"` whenever that session's
status is not `running` (in particular after `cancel`), leaving the world
state unchanged; and `cancel` on an existing session sets its status to
`cancelled` and invokes only the workflow's `onComplete` callback — the
appended event trace is exactly `[completeEv cancelled]`, with no
`successEv`/`failureEv`. -/
theorem cancel_continue_spec {σ : Type} (wf : McpWorkflow σ) (fuel : Nat)
    (st : WfState σ) (sid : String) (sess : WorkflowSession)
    (h : storeGet st.store sid = some sess) :
    (st.lastSessionId = some sid → sess.status ≠ .running →
      wf.continueWorkflow fuel st =
        (.error ("Cannot continue workflow in status: " ++ statusStr sess.status), st)) ∧
    wf.cancel sid st =
      (.ok (),
       { st with clock := st.clock + 1,
                 store := storeSet st.store sid { sess with status := .cancelled, completedAt := some st.clock, error := none },
                 wfEvents := st.wfEvents ++ [.completeEv .cancelled] }) :=
  ⟨fun hl hs => continue_notRunning wf fuel st sid sess hl h hs,
   cancel_eq wf sid st sess h⟩

/-- **C5** witness: the theorem applied to a cancelled session that is the
orchestrator's current session. -/
theorem cancel_continue_witness :
    wfTwo.continueWorkflow 3 stCancelled =
      (.error ("Cannot continue workflow in status: " ++ statusStr sessCancelled.status),
       stCancelled) :=
  (cancel_continue_spec wfTwo 3 stCancelled "s1" sessCancelled rfl).1 rfl (by decide)

/-! ## C6 -/

/-- **C6** counterexample: the one-step workflow with the two branch rules,
run on an activity result whose data is `{valid:false}`, produces **no**
suggestions at all (let alone one targeting `err_tool`): the single step is
the last step, and `handleSuccessfulStep` completes the workflow before
`buildToolCallSuggestions` is ever reached. -/
theorem branch_on_last_step_counterexample :
    ((wfOne.start (.vObj [("x", .vNum 1)]) st0).1.map
      (fun r => ((r.nextInstructions.filter (fun s => s.toolName == "err_tool")).length,
                 r.nextInstructions.length))) = Except.ok (0, 0) := rfl

/-- **C6** (amended): the same two branch rules placed on a **non-last** step
(the first step of a two-step workflow), executed with an activity result
whose data is `{valid:false}`, produce exactly one suggestion targeting
`"err_tool"`, none targeting `"ok_tool"`, and the default continue
suggestion ranked after it. -/
theorem branch_on_nonlast_step_amended :
    ((wfTwo.start (.vObj [("x", .vNum 1)]) st0).1.map
      (fun r => ((r.nextInstructions.filter (fun s => s.toolName == "err_tool")).length,
                 (r.nextInstructions.filter (fun s => s.toolName == "ok_tool")).length,
                 r.nextInstructions.map (fun s => s.toolName)))) =
      Except.ok (1, 0, ["err_tool", "wf_continue"]) := rfl

/-! ## C7 -/

/-- **C7** counterexample: `createSession` with a `sessionId` that already
exists does **not** reject — it returns normally and silently replaces the
stored session (the stored `workflowName` flips from `w1` to `w2`). -/
theorem createSession_no_reject_counterexample :
    ((InMemoryWorkflowStore.createSession [("dup", s7a)] s7b).1.map
      (fun kv => kv.2.workflowName)) = ["w2"] ∧
    (InMemoryWorkflowStore.createSession [("dup", s7a)] s7b).2 = s7b :=
  ⟨rfl, rfl⟩

/-- **C7** (amended): `createSession` never rejects: it unconditionally
stores the session under its id — overwriting any existing session with the
same id, leaving all other ids untouched — and returns the stored copy. -/
theorem createSession_overwrites_amended (store : Store) (session : WorkflowSession) :
    (InMemoryWorkflowStore.createSession store session).2 = session ∧
    storeGet (InMemoryWorkflowStore.createSession store session).1 session.sessionId =
      some session ∧
    ∀ k, k ≠ session.sessionId →
      storeGet (InMemoryWorkflowStore.createSession store session).1 k =
        storeGet store k :=
  ⟨rfl, storeGet_set_self store session.sessionId session,
   fun k hk => storeGet_set_ne store session.sessionId k session hk⟩

/-- **C7** witness: the amended theorem applied to the duplicate-id store. -/
theorem createSession_overwrites_witness :
    storeGet (InMemoryWorkflowStore.createSession [("dup", s7a)] s7b).1 "other" =
      storeGet [("dup", s7a)] "other" :=
  (createSession_overwrites_amended [("dup", s7a)] s7b).2.2 "other" (by decide)

/-! ## C8 -/

/-- **C8** (amended): once a session has a terminal status
(`completed`/`failed`/`cancelled`), `continue()` refuses to touch it — it
raises the status-naming error and leaves the world state unchanged — but
`cancel` is **not** guarded by status: applied to an already-completed or
already-failed (or already-cancelled) session it overwrites the status to
`cancelled`, refreshes `completedAt` from the clock, and clears `error`,
leaving every other field intact, rather than leaving the session unchanged
(the unamended "terminal at most once / `completedAt` set exactly once"
claim fails on exactly this path; see the counterexample). -/
theorem terminal_session_mutation_amended {σ : Type} (wf : McpWorkflow σ)
    (fuel : Nat) (st : WfState σ) (sid : String) (sess : WorkflowSession)
    (h : storeGet st.store sid = some sess)
    (hterm : sess.status = .completed ∨ sess.status = .failed ∨
      sess.status = .cancelled) :
    (st.lastSessionId = some sid →
      wf.continueWorkflow fuel st =
        (.error ("Cannot continue workflow in status: " ++ statusStr sess.status), st)) ∧
    wf.cancel sid st =
      (.ok (),
       { st with clock := st.clock + 1,
                 store := storeSet st.store sid { sess with status := .cancelled, completedAt := some st.clock, error := none },
                 wfEvents := st.wfEvents ++ [.completeEv .cancelled] }) := by
  have hns : sess.status ≠ .running := by
    rcases hterm with h1 | h1 | h1 <;> simp [h1]
  exact ⟨fun hl => continue_notRunning wf fuel st sid sess hl h hns,
    cancel_eq wf sid st sess h⟩

/-- **C8** counterexample: `cancel` applied to an already-completed session
(terminal since `completedAt = 5`) does not leave it unchanged: the status
flips to `cancelled` and `completedAt` is set a second time (to `9`). -/
theorem cancel_after_completion_counterexample :
    doneSession.status = WorkflowStatus.completed ∧
    doneSession.completedAt = some 5 ∧
    ((wfTwo.cancel "s1" stDone).2.store.map
      (fun kv => (kv.2.status, kv.2.completedAt))) =
      [(WorkflowStatus.cancelled, some 9)] :=
  ⟨rfl, rfl, rfl⟩

/-- **C8** witness: the amended theorem's cancel conjunct applied to the
already-completed session. -/
theorem terminal_session_mutation_witness :
    wfTwo.cancel "s1" stDone =
      (.ok (),
       { stDone with clock := stDone.clock + 1,
                     store := storeSet stDone.store "s1" { doneSession with status := .cancelled, completedAt := some stDone.clock, error := none },
                     wfEvents := stDone.wfEvents ++ [.completeEv .cancelled] }) :=
  (terminal_session_mutation_amended wfTwo 3 stDone "s1" doneSession rfl
    (Or.inl rfl)).2

/-! ## C9 -/

/-- **C9**: the claim is right and the code is wrong.  The spec and the
repository's own test suite (`tests/PauseWorkflow.test.ts` calls
`workflow.pause(sessionId)` and expects `WorkflowStatus.PAUSED`) require a
`pause` operation and a `paused` status, but `src/McpWorkflow.ts` defines no
`pause` method and the `WorkflowStatus` enum of `src/types.ts` (lines
110–116) has exactly the five members modelled here — none of them is
`"paused"`, so no session of this implementation can ever be paused. -/
theorem no_paused_status : ∀ s : WorkflowStatus, statusStr s ≠ "paused" := by
  intro s
  cases s <;> decide

/-! ## C10 -/

/-- **C10** (amended): for a non-last step whose activity result carries
falsy `data`, the branch guard `step.branches && result.data` fails, so no
branch suggestion is produced and no `when` predicate can influence the
output (the right-hand side below does not mention `step.branches` at all,
for every workflow): the returned list is the stable descending-priority
sort of the suggestions carried by the result itself plus — only when none
of those already targets `{workflow}_continue` — the single default continue
suggestion.  (Unamended, the claim is false when a carried suggestion
already targets the continue tool: the default is then not added; see the
counterexample.) -/
theorem falsy_data_suggestions_amended {σ : Type} (wf : McpWorkflow σ)
    (stepIndex : Nat) (result : ActivityResult) (sid : String)
    (stepInput : Value) (store : Store) (step : WorkflowStep σ)
    (h2 : wf.config.steps.get? stepIndex = some step)
    (hNotLast : (stepIndex == wf.config.steps.length - 1) = false)
    (hdata : result.data.truthy = false) :
    wf.buildToolCallSuggestions stepIndex result sid stepInput store =
      stableSort (fun a b => b.priority.getD 0 < a.priority.getD 0)
        (result.toolCallSuggestions ++
          (if result.toolCallSuggestions.any
              (fun s => s.toolName == wf.name ++ "_continue")
           then []
           else [{ toolName := wf.name ++ "_continue", parameters := [],
                   condition := some "Continue to next step in workflow",
                   priority := some 50 }])) := by
  unfold McpWorkflow.buildToolCallSuggestions
  simp only [h2, hdata, hNotLast, Bool.false_eq_true, if_false, List.append_nil,
    Bool.not_false, Bool.true_and]
  by_cases hany : result.toolCallSuggestions.any
      (fun s => s.toolName == wf.name ++ "_continue") <;>
    simp [hany]

/-- **C10** counterexample: with falsy data and a carried suggestion that
already targets `wf_continue`, the returned list is exactly the carried
suggestion — the default continue suggestion (the one whose condition is
`"Continue to next step in workflow"`) is **not** added. -/
theorem falsy_data_default_counterexample :
    wfTwo.buildToolCallSuggestions 0 resNoData "session-0" Value.undef [] =
      [carriedCont] ∧
    ((wfTwo.buildToolCallSuggestions 0 resNoData "session-0" Value.undef []).filter
      (fun s => s.condition == some "Continue to next step in workflow")).length = 0 :=
  ⟨rfl, rfl⟩

/-- **C10** witness: the amended theorem applied to the carried-continue
result on the two-step workflow's first step. -/
theorem falsy_data_suggestions_witness :
    wfTwo.buildToolCallSuggestions 0 resNoData "session-0" Value.undef [] =
      stableSort (fun a b => b.priority.getD 0 < a.priority.getD 0)
        (resNoData.toolCallSuggestions ++
          (if resNoData.toolCallSuggestions.any
              (fun s => s.toolName == wfTwo.name ++ "_continue")
           then []
           else [{ toolName := wfTwo.name ++ "_continue", parameters := [],
                   condition := some "Continue to next step in workflow",
                   priority := some 50 }])) :=
  falsy_data_suggestions_amended wfTwo 0 resNoData "session-0" Value.undef []
    { activity := valAct, branches := okErrBranches } rfl rfl rfl
